import Mathlib

/-!
Verification of the project-classification engine of the ci-cd_generator
repository (src/project_analyzer.py, src/test_analyzer.py), shallowly
embedded in Lean 4.  The filesystem is modelled as a pure snapshot; every
Python function the claims touch is translated into an executable Lean
definition which mirrors the source line by line.  Python exceptions are
modelled with an explicit error type and Except; stateful methods of the
TestFramework class are modelled as explicit state passing.
-/

set_option maxRecDepth 4000

/-! ## String toolbox

Python string primitives, re-implemented structurally over the character
lists of Lean strings so that every definition evaluates inside the kernel
(the corresponding core String functions use well-founded loops that do
not reduce definitionally). -/

/-- Python prefix test s.startswith(pre). -/
def startsWithS (pre s : String) : Bool :=
  pre.data.isPrefixOf s.data

/-- Python suffix test s.endswith(suf). -/
def endsWithS (suf s : String) : Bool :=
  suf.data.isSuffixOf s.data

/-- Python s.lower restricted to the ASCII case mapping. -/
def toLowerS (s : String) : String :=
  ⟨s.data.map Char.toLower⟩

/-- Python s.strip(): whitespace removed from both ends. -/
def trimS (s : String) : String :=
  ⟨((s.data.dropWhile Char.isWhitespace).reverse.dropWhile Char.isWhitespace).reverse⟩

/-- Splitting a character list at every separator character, keeping empty
chunks, as Python s.split(sep) for a one-character separator. -/
def splitCharAux (p : Char → Bool) : List Char → List Char → List (List Char)
  | [], acc => [acc.reverse]
  | c :: cs, acc =>
    if p c then acc.reverse :: splitCharAux p cs [] else splitCharAux p cs (c :: acc)

/-- The lines of a file body, as iterating a Python text file yields them
(terminators stripped; every consumer below strips or tokenizes anyway). -/
def linesOf (s : String) : List String :=
  (splitCharAux (· == '\n') s.data []).map List.asString

/-- Python s.split() with no argument: whitespace runs separate the tokens
and empty tokens vanish. -/
def pyWords (s : String) : List String :=
  ((splitCharAux Char.isWhitespace s.data []).filter (fun w => !w.isEmpty)).map List.asString

/-- The characters before the first occurrence of the separator, as the head
of Python s.split(sep) for a non-empty separator. -/
def takeUntil (sep : List Char) : List Char → List Char
  | [] => []
  | c :: cs => if sep.isPrefixOf (c :: cs) then [] else c :: takeUntil sep cs

/-- Head of Python s.split(sep) as a String operation. -/
def firstChunk (sep s : String) : String :=
  (takeUntil sep.data s.data).asString

/-- Python s.replace(pat, rep) for a non-empty pattern, driven by fuel so the
recursion is structural. -/
def replaceAllF (pat rep : List Char) : Nat → List Char → List Char
  | 0, s => s
  | fuel + 1, s =>
    match s with
    | [] => []
    | c :: cs =>
      if pat.isPrefixOf (c :: cs) && !pat.isEmpty then
        rep ++ replaceAllF pat rep fuel ((c :: cs).drop pat.length)
      else
        c :: replaceAllF pat rep fuel cs

/-- Python s.replace(pat, rep) as a String operation. -/
def replaceS (pat rep s : String) : String :=
  (replaceAllF pat.data rep.data s.data.length s.data).asString

/-- Deduplication keeping first occurrences, with an explicit seen
accumulator so the recursion is structural. -/
def dedupSeen {α : Type} [BEq α] (seen : List α) : List α → List α
  | [] => []
  | x :: xs =>
    if seen.contains x then dedupSeen seen xs else x :: dedupSeen (x :: seen) xs

/-- Set-like deduplication of a list, keeping first occurrences. -/
def dedupFirst {α : Type} [BEq α] (l : List α) : List α :=
  dedupSeen [] l

/-- A regular file in the modelled directory tree: its path, as the list of
components relative to the analyzer root, and its text content. -/
structure PFile where
  path : List String
  content : String
deriving DecidableEq, Repr

/-- Pure snapshot of the directory tree under the analyzer root: the regular
files, plus directories that contain no file at all (non-empty directories
already exist implicitly as proper prefixes of file paths). -/
structure FS where
  files : List PFile
  dirs : List (List String) := []
deriving DecidableEq, Repr

/-- The Python exceptions observable through the classification entry point. -/
inductive PyErr where
  | valueError (msg : String)
  | indexError
  | osError
deriving DecidableEq, Repr

deriving instance DecidableEq for Except

/-- A path is present (os.path.exists) when it is a file, a directory implied
by some file, or an explicitly declared directory or one of its ancestors. -/
def pathPresent (fs : FS) (p : List String) : Bool :=
  !p.isEmpty &&
    (fs.files.any (fun f => p.isPrefixOf f.path) || fs.dirs.any (fun d => p.isPrefixOf d))

/-- Content of the regular file at the given exact path, if any. -/
def readFile (fs : FS) (p : List String) : Option String :=
  (fs.files.find? (fun f => f.path == p)).map (·.content)

/-- fnmatch-style matching of one path component, driven by fuel so that the
definition is structurally recursive and evaluates inside the kernel: a star
matches any run of characters and every other character matches itself (the
source patterns use no other metacharacter). -/
def wildMatchF : Nat → List Char → List Char → Bool
  | 0, p, s => p.isEmpty && s.isEmpty
  | fuel + 1, p, s =>
    match p, s with
    | [], [] => true
    | [], _ :: _ => false
    | '*' :: ps, s1 =>
      wildMatchF fuel ps s1 ||
        (match s1 with
         | [] => false
         | _ :: s2 => wildMatchF fuel ('*' :: ps) s2)
    | _ :: _, [] => false
    | c :: ps, c2 :: cs => c == c2 && wildMatchF fuel ps cs

/-- String front end of the component matcher; the fuel bound covers every
recursive call, each of which shortens the pattern or the candidate. -/
def wmatch (pat s : String) : Bool :=
  wildMatchF (pat.length + s.length) pat.data s.data

/-- Whether one character list occurs inside another, as Python substring
containment on strings. -/
def listSub : List Char → List Char → Bool
  | n, [] => n.isEmpty
  | n, h :: t => n.isPrefixOf (h :: t) || listSub n t

/-- Python substring containment (the in operator on str). -/
def substr (needle haystack : String) : Bool :=
  listSub needle.data haystack.data

/-- Names of the entries (files or directories) lying directly inside the
given directory, in first-occurrence order of the snapshot listing; the OS
iteration order is unspecified in the source, the snapshot order stands in
for it. -/
def entriesUnder (fs : FS) (dir : List String) : List String :=
  let fromFiles := fs.files.filterMap (fun f =>
    if dir.isPrefixOf f.path && dir.length < f.path.length then
      f.path[dir.length]?
    else none)
  let fromDirs := fs.dirs.filterMap (fun d =>
    if dir.isPrefixOf d && dir.length < d.length then
      d[dir.length]?
    else none)
  dedupFirst (fromFiles ++ fromDirs)

/-- Whether the entry of that name directly inside the directory is itself a
directory. -/
def entryIsDir (fs : FS) (dir : List String) (name : String) : Bool :=
  fs.files.any (fun f =>
    (dir ++ [name]).isPrefixOf f.path && dir.length + 1 < f.path.length) ||
  fs.dirs.any (fun d => (dir ++ [name]).isPrefixOf d)

/-! ## JSON values and parsing

The source reads package.json and composer.json through json.load; every
such call sits inside a try/except, so a parse failure only ever selects the
fallback branch.  The parser below models json.load: strict JSON plus the
NaN/Infinity extensions, with last-occurrence-wins duplicate keys, driven by
fuel (exhausted fuel models the recursion limit, which the guarding except
blocks also swallow). -/

/-- A JSON value as json.load produces it; numbers keep their raw text since
no consumer in the source ever uses a numeric value. -/
inductive JVal where
  | jnull
  | jbool (b : Bool)
  | jnum (raw : String)
  | jstr (s : String)
  | jarr (elems : List JVal)
  | jobj (fields : List (String × JVal))

/-- The four JSON whitespace characters. -/
def skipWs (s : List Char) : List Char :=
  s.dropWhile (fun c => c == ' ' || c == '\t' || c == '\n' || c == '\r')

/-- One hexadecimal digit. -/
def hexVal (c : Char) : Option Nat :=
  if c.isDigit then some (c.toNat - 48)
  else if 'a' ≤ c && c ≤ 'f' then some (c.toNat - 87)
  else if 'A' ≤ c && c ≤ 'F' then some (c.toNat - 55)
  else none

/-- A \uXXXX escape body. -/
def parseHex4 : List Char → Option (Nat × List Char)
  | a :: b :: c :: d :: r =>
    match hexVal a, hexVal b, hexVal c, hexVal d with
    | some x, some y, some z, some w => some (((x * 16 + y) * 16 + z) * 16 + w, r)
    | _, _, _, _ => none
  | _ => none

/-- Body of a JSON string, after the opening quote. -/
def parseJStr : Nat → List Char → List Char → Option (String × List Char)
  | 0, _, _ => none
  | fuel + 1, acc, s =>
    match s with
    | [] => none
    | '"' :: r => some (acc.reverse.asString, r)
    | '\\' :: e :: r =>
      match e with
      | '"' => parseJStr fuel ('"' :: acc) r
      | '\\' => parseJStr fuel ('\\' :: acc) r
      | '/' => parseJStr fuel ('/' :: acc) r
      | 'b' => parseJStr fuel ('\x08' :: acc) r
      | 'f' => parseJStr fuel ('\x0c' :: acc) r
      | 'n' => parseJStr fuel ('\n' :: acc) r
      | 'r' => parseJStr fuel ('\r' :: acc) r
      | 't' => parseJStr fuel ('\t' :: acc) r
      | 'u' =>
        match parseHex4 r with
        | some (n, r2) => parseJStr fuel (Char.ofNat n :: acc) r2
        | none => none
      | _ => none
    | c :: r => parseJStr fuel (c :: acc) r

/-- A JSON number starting at the current position, kept as raw text. -/
def parseJNum (s : List Char) : Option (String × List Char) :=
  let sign : List Char × List Char :=
    match s with
    | '-' :: r => (['-'], r)
    | _ => ([], s)
  let intPart := sign.2.takeWhile Char.isDigit
  if intPart.isEmpty then none
  else
    let r1 := sign.2.drop intPart.length
    let frac : List Char × List Char :=
      match r1 with
      | '.' :: r2 =>
        let ds := r2.takeWhile Char.isDigit
        if ds.isEmpty then ([], r1) else ('.' :: ds, r2.drop ds.length)
      | _ => ([], r1)
    let expPart : List Char × List Char :=
      match frac.2 with
      | 'e' :: r3 =>
        match r3 with
        | '+' :: r4 => (let ds := r4.takeWhile Char.isDigit;
            if ds.isEmpty then ([], frac.2) else ('e' :: '+' :: ds, r4.drop ds.length))
        | '-' :: r4 => (let ds := r4.takeWhile Char.isDigit;
            if ds.isEmpty then ([], frac.2) else ('e' :: '-' :: ds, r4.drop ds.length))
        | _ => (let ds := r3.takeWhile Char.isDigit;
            if ds.isEmpty then ([], frac.2) else ('e' :: ds, r3.drop ds.length))
      | 'E' :: r3 =>
        (let ds := r3.takeWhile Char.isDigit;
          if ds.isEmpty then ([], frac.2) else ('E' :: ds, r3.drop ds.length))
      | _ => ([], frac.2)
    some ((sign.1 ++ intPart ++ frac.1 ++ expPart.1).asString, expPart.2)

mutual

/-- A JSON value at the current position. -/
def parseJVal : Nat → List Char → Option (JVal × List Char)
  | 0, _ => none
  | fuel + 1, s =>
    match skipWs s with
    | 'n' :: 'u' :: 'l' :: 'l' :: r => some (.jnull, r)
    | 't' :: 'r' :: 'u' :: 'e' :: r => some (.jbool true, r)
    | 'f' :: 'a' :: 'l' :: 's' :: 'e' :: r => some (.jbool false, r)
    | 'N' :: 'a' :: 'N' :: r => some (.jnum "NaN", r)
    | 'I' :: 'n' :: 'f' :: 'i' :: 'n' :: 'i' :: 't' :: 'y' :: r =>
      some (.jnum "Infinity", r)
    | '-' :: 'I' :: 'n' :: 'f' :: 'i' :: 'n' :: 'i' :: 't' :: 'y' :: r =>
      some (.jnum "-Infinity", r)
    | '"' :: r => (parseJStr (r.length + 1) [] r).map (fun p => (.jstr p.1, p.2))
    | '[' :: r =>
      (match skipWs r with
       | ']' :: r2 => some (.jarr [], r2)
       | _ => (parseJElems fuel r).map (fun p => (.jarr p.1, p.2)))
    | '\x7b' :: r =>
      (match skipWs r with
       | '\x7d' :: r2 => some (.jobj [], r2)
       | _ => (parseJFields fuel r).map (fun p => (.jobj p.1, p.2)))
    | c :: r =>
      if c.isDigit || c == '-' then
        (parseJNum (c :: r)).map (fun p => (.jnum p.1, p.2))
      else none
    | [] => none

/-- Comma-separated array elements up to the closing bracket. -/
def parseJElems : Nat → List Char → Option (List JVal × List Char)
  | 0, _ => none
  | fuel + 1, s =>
    match parseJVal fuel s with
    | none => none
    | some (v, r) =>
      match skipWs r with
      | ',' :: r2 => (parseJElems fuel r2).map (fun p => (v :: p.1, p.2))
      | ']' :: r2 => some ([v], r2)
      | _ => none

/-- Comma-separated object members up to the closing brace. -/
def parseJFields : Nat → List Char → Option (List (String × JVal) × List Char)
  | 0, _ => none
  | fuel + 1, s =>
    match skipWs s with
    | '"' :: r =>
      match parseJStr (r.length + 1) [] r with
      | none => none
      | some (key, r1) =>
        match skipWs r1 with
        | ':' :: r2 =>
          (match parseJVal fuel r2 with
           | none => none
           | some (v, r3) =>
             match skipWs r3 with
             | ',' :: r4 => (parseJFields fuel r4).map (fun p => ((key, v) :: p.1, p.2))
             | '\x7d' :: r4 => some ([(key, v)], r4)
             | _ => none)
        | _ => none
    | _ => none

end

/-- json.load on a whole document. -/
def jsonParse (s : String) : Option JVal :=
  match parseJVal (2 * s.data.length + 4) s.data with
  | some (v, r) => if (skipWs r).isEmpty then some v else none
  | none => none

/-- Python dict lookup for an object built by json.load: a duplicated key
keeps its last value. -/
def jLookup (fields : List (String × JVal)) (key : String) : Option JVal :=
  (fields.reverse.find? (fun f => f.1 == key)).map (·.2)

/-- The key set of an object built by json.load. -/
def jKeys (fields : List (String × JVal)) : List String :=
  dedupFirst (fields.map (·.1))

/-! ## ProjectAnalyzer: language detection (src/project_analyzer.py) -/

/-- ProjectAnalyzer._file_exists: a pattern with a star is resolved with the
glob module over the entries directly under the project root (the glob module
never matches hidden names when the pattern does not start with a dot); a
plain name is an os.path.exists check. -/
def file_exists (fs : FS) (pattern : String) : Bool :=
  if pattern.data.contains '*' then
    (entriesUnder fs []).any (fun name =>
      (!startsWithS "." name || startsWithS "." pattern) && wmatch pattern name)
  else
    pathPresent fs [pattern]

/-- ProjectAnalyzer.LANGUAGE_MARKERS, in source (insertion) order: language,
high-tier markers, medium-tier markers. -/
def LANGUAGE_MARKERS : List (String × List String × List String) :=
  [ ("python", (["requirements.txt", "setup.py", "pyproject.toml", "Pipfile"], ["*.py"])),
    ("go", (["go.mod"], ["*.go"])),
    ("node", (["package.json"], ["*.js", "*.ts", "*.tsx"])),
    ("typescript", (["tsconfig.json"], ["*.ts", "*.tsx"])),
    ("java", (["pom.xml", "build.gradle"], ["*.java"])),
    ("kotlin", (["pom.xml", "build.gradle", "build.gradle.kts"], ["*.kt"])),
    ("php", (["composer.json"], ["*.php"])),
    ("rust", (["Cargo.toml"], ["*.rs"])),
    ("ruby", (["Gemfile"], ["*.rb"])) ]

/-- The confidence tier recorded by language detection. -/
inductive Confidence where
  | high
  | medium
  | nomatch
deriving DecidableEq, Repr

/-- The priority table of _detect_language (high 3, medium 2, anything else 0). -/
def confPriority : Confidence → Nat
  | .high => 3
  | .medium => 2
  | .nomatch => 0

/-- The record _detect_language returns. -/
structure LangInfo where
  language : String
  marker : Option String
  confidence : Confidence
deriving DecidableEq, Repr

/-- Per-language body of the _detect_language loop: the first high marker that
exists wins and the medium set is consulted only when no high marker hit. -/
def detectOne (fs : FS) (markers : List String × List String) :
    Option (Confidence × String) :=
  match markers.1.find? (fun m => file_exists fs m) with
  | some m => some (.high, m)
  | none => (markers.2.find? (fun m => file_exists fs m)).map (fun m => (.medium, m))

/-- The detections dictionary of _detect_language, in registry insertion
order. -/
def detections (fs : FS) : List (String × Confidence × String) :=
  LANGUAGE_MARKERS.filterMap (fun lm => (detectOne fs lm.2).map (fun d => (lm.1, d)))

/-- Python max over dict items with a key function: the first item attaining
the maximum wins, so a later item replaces the accumulator only when strictly
greater. -/
def maxByPriority (x : String × Confidence × String)
    (xs : List (String × Confidence × String)) : String × Confidence × String :=
  xs.foldl (fun b y => if confPriority b.2.1 < confPriority y.2.1 then y else b) x

/-- ProjectAnalyzer._detect_language. -/
def detect_language (fs : FS) : LangInfo :=
  match detections fs with
  | [] => ⟨"unknown", none, .nomatch⟩
  | d :: ds =>
    let best := maxByPriority d ds
    ⟨best.1, some best.2.2, best.2.1⟩

/-! ## ProjectAnalyzer: version resolution -/

/-- Gap scanner for the regular expression python_requires.*?(3\.\d+): inside
the current line (a dot never crosses a newline), find the first "3." that a
digit follows and capture the greedy digit run. -/
def scanLine3x : List Char → Option (List Char)
  | [] => none
  | '\n' :: _ => none
  | '3' :: '.' :: c :: rest =>
    if c.isDigit then some ('3' :: '.' :: c :: rest.takeWhile Char.isDigit)
    else scanLine3x (c :: rest)
  | _ :: rest => scanLine3x rest

/-- re.search of python_requires.*?(3\.\d+): leftmost occurrence of the
keyword whose line remainder contains the version pattern. -/
def searchPyReq : List Char → Option String
  | [] => none
  | c :: rest =>
    if "python_requires".data.isPrefixOf (c :: rest) then
      match scanLine3x ((c :: rest).drop 15) with
      | some v => some v.asString
      | none => searchPyReq rest
    else searchPyReq rest

/-- ProjectAnalyzer._detect_python_version. -/
def detect_python_version (fs : FS) : String :=
  match readFile fs ["requirements.txt"] with
  | none => "3.11"
  | some content => (searchPyReq content.data).getD "3.11"

/-- Loop body of _detect_go_version: the first line starting with a go
directive is tokenized and indexed without a guard, so a line holding no
second token raises IndexError. -/
def goVersionLines : List String → Except PyErr String
  | [] => .ok "1.21"
  | l :: ls =>
    if startsWithS "go " l then
      match (pyWords l)[1]? with
      | some v => .ok v
      | none => .error .indexError
    else goVersionLines ls

/-- ProjectAnalyzer._detect_go_version. -/
def detect_go_version (fs : FS) : Except PyErr String :=
  match readFile fs ["go.mod"] with
  | none => .ok "1.21"
  | some content => goVersionLines (linesOf content)

/-- The literal alternatives of the Java version pattern, each closed by the
end tag. -/
def javaAltLit (s : List Char) : Option String :=
  if "11</source>".data.isPrefixOf s then some "11"
  else if "17</source>".data.isPrefixOf s then some "17"
  else if "21</source>".data.isPrefixOf s then some "21"
  else none

/-- One attempt of the alternation (1\.\d+|11|17|21)</source> at the current
position. -/
def javaAlt (s : List Char) : Option String :=
  match s with
  | '1' :: '.' :: c :: rest =>
    if c.isDigit then
      let ds := rest.takeWhile Char.isDigit
      if "</source>".data.isPrefixOf (rest.drop ds.length) then
        some ("1." ++ (c :: ds).asString)
      else javaAltLit s
    else javaAltLit s
  | _ => javaAltLit s

/-- re.search of <source>(1\.\d+|11|17|21)</source>. -/
def scanJavaSource : List Char → Option String
  | [] => none
  | c :: rest =>
    if "<source>".data.isPrefixOf (c :: rest) then
      match javaAlt ((c :: rest).drop 8) with
      | some v => some v
      | none => scanJavaSource rest
    else scanJavaSource rest

/-- ProjectAnalyzer._detect_java_version. -/
def detect_java_version (fs : FS) : String :=
  match readFile fs ["pom.xml"] with
  | none => "17"
  | some content => (scanJavaSource content.data).getD "17"

/-- re.search of \d+ over a string: the first digit run. -/
def firstDigitRun : List Char → Option String
  | [] => none
  | c :: cs =>
    if c.isDigit then some (c :: cs.takeWhile Char.isDigit).asString
    else firstDigitRun cs

/-- ProjectAnalyzer._detect_node_version: every failure inside its try block
(malformed JSON, a non-object document, a non-string engines entry) selects
the default. -/
def detect_node_version (fs : FS) : String :=
  match readFile fs ["package.json"] with
  | none => "20"
  | some content =>
    match jsonParse content with
    | some (.jobj fields) =>
      match jLookup fields "engines" with
      | some (.jobj eng) =>
        match jLookup eng "node" with
        | some (.jstr v) => (firstDigitRun v.data).getD "20"
        | _ => "20"
      | _ => "20"
    | _ => "20"

/-- One attempt of \d+\.\d+ at the current position. -/
def matchDxD (s : List Char) : Option String :=
  let d1 := s.takeWhile Char.isDigit
  if d1.isEmpty then none
  else
    match s.drop d1.length with
    | '.' :: rest2 =>
      let d2 := rest2.takeWhile Char.isDigit
      if d2.isEmpty then none else some (d1 ++ '.' :: d2).asString
    | _ => none

/-- re.search of \d+\.\d+. -/
def searchDxD : List Char → Option String
  | [] => none
  | c :: cs =>
    match matchDxD (c :: cs) with
    | some v => some v
    | none => searchDxD cs

/-- ProjectAnalyzer._detect_php_version: guarded exactly like the node
resolver. -/
def detect_php_version (fs : FS) : String :=
  match readFile fs ["composer.json"] with
  | none => "8.2"
  | some content =>
    match jsonParse content with
    | some (.jobj fields) =>
      match jLookup fields "require" with
      | some (.jobj req) =>
        match jLookup req "php" with
        | some (.jstr v) => (searchDxD v.data).getD "8.2"
        | _ => "8.2"
      | _ => "8.2"
    | _ => "8.2"

/-- ProjectAnalyzer._detect_rust_version. -/
def detect_rust_version (fs : FS) : String :=
  match readFile fs ["rust-toolchain"] with
  | none => "latest"
  | some content => trimS content

/-- ProjectAnalyzer._detect_ruby_version. -/
def detect_ruby_version (fs : FS) : String :=
  match readFile fs [".ruby-version"] with
  | none => "3.2"
  | some content => trimS content

/-- ProjectAnalyzer._detect_version: the per-language dispatch.  Only the go
resolver can fail; every other branch is total. -/
def detect_version (fs : FS) (language : String) : Except PyErr String :=
  if language == "python" then .ok (detect_python_version fs)
  else if language == "go" then detect_go_version fs
  else if language == "node" || language == "typescript" then .ok (detect_node_version fs)
  else if language == "java" || language == "kotlin" then .ok (detect_java_version fs)
  else if language == "php" then .ok (detect_php_version fs)
  else if language == "rust" then .ok (detect_rust_version fs)
  else if language == "ruby" then .ok (detect_ruby_version fs)
  else .ok "latest"

/-! ## ProjectAnalyzer: framework detection -/

/-- ProjectAnalyzer.FRAMEWORK_DETECTION, in source (insertion) order. -/
def FRAMEWORK_DETECTION : List (String × List (String × List String)) :=
  [ ("python",
      [ ("Django", ["django", "Django"]),
        ("Flask", ["flask", "Flask"]),
        ("FastAPI", ["fastapi", "FastAPI"]),
        ("Tornado", ["tornado"]),
        ("Pyramid", ["pyramid"]) ]),
    ("go",
      [ ("Gin", ["gin-gonic/gin", "github.com/gin-gonic/gin"]),
        ("Echo", ["labstack/echo", "github.com/labstack/echo"]),
        ("Fiber", ["gofiber/fiber", "github.com/gofiber/fiber"]),
        ("Chi", ["go-chi/chi", "github.com/go-chi/chi"]),
        ("Beego", ["beego/beego", "github.com/beego/beego"]),
        ("Gorilla Mux", ["gorilla/mux", "github.com/gorilla/mux"]) ]),
    ("node",
      [ ("Express", ["express"]),
        ("NestJS", ["@nestjs/core"]),
        ("Koa", ["koa"]),
        ("Fastify", ["fastify"]),
        ("Next.js", ["next"]) ]),
    ("typescript",
      [ ("Express", ["express"]),
        ("NestJS", ["@nestjs/core"]),
        ("Angular", ["@angular/core"]),
        ("React", ["react"]),
        ("Vue", ["vue"]),
        ("Next.js", ["next"]) ]),
    ("java",
      [ ("Spring Boot", ["spring-boot", "org.springframework.boot"]),
        ("Spring", ["springframework"]),
        ("Quarkus", ["quarkus"]),
        ("Micronaut", ["micronaut"]),
        ("Vert.x", ["vertx"]) ]),
    ("kotlin",
      [ ("Spring Boot", ["spring-boot"]),
        ("Ktor", ["ktor", "io.ktor"]),
        ("Micronaut", ["micronaut"]),
        ("Quarkus", ["quarkus"]) ]) ]

/-- The first framework, in table iteration order, one of whose identifiers
satisfies the hit test. -/
def firstFramework (frameworks : List (String × List String)) (hit : String → Bool) :
    Option String :=
  (frameworks.find? (fun fw => fw.2.any hit)).map (·.1)

/-- A manifest scan comparing raw identifier text against raw content. -/
def scanManifestRaw (fs : FS) (p : List String) (frameworks : List (String × List String)) :
    Option String :=
  match readFile fs p with
  | none => none
  | some content => firstFramework frameworks (fun m => substr m content)

/-- A manifest scan where the content is lower-cased once and each identifier
is lower-cased before the containment test. -/
def scanManifestLower (fs : FS) (p : List String) (frameworks : List (String × List String)) :
    Option String :=
  match readFile fs p with
  | none => none
  | some content => firstFramework frameworks (fun m => substr (toLowerS m) (toLowerS content))

/-- ProjectAnalyzer._detect_python_framework: requirements.txt first, then
pyproject.toml; no source file is consulted. -/
def detect_python_framework (fs : FS) (frameworks : List (String × List String)) :
    Option String :=
  match scanManifestLower fs ["requirements.txt"] frameworks with
  | some f => some f
  | none => scanManifestLower fs ["pyproject.toml"] frameworks

/-- ProjectAnalyzer._detect_go_framework. -/
def detect_go_framework (fs : FS) (frameworks : List (String × List String)) :
    Option String :=
  scanManifestRaw fs ["go.mod"] frameworks

/-- Dict unpacking of an optional dependency table: an absent key defaults to
an empty dict, a non-dict value raises inside the try block (hence the whole
detector answers None). -/
def asFields : Option JVal → Option (List (String × JVal))
  | none => some []
  | some (.jobj fields) => some fields
  | some _ => none

/-- ProjectAnalyzer._detect_node_framework: the merged keys of dependencies
and devDependencies are probed for exact key membership; any exception in the
try block yields None. -/
def detect_node_framework (fs : FS) (frameworks : List (String × List String)) :
    Option String :=
  match readFile fs ["package.json"] with
  | none => none
  | some content =>
    match jsonParse content with
    | some (.jobj pkg) =>
      match asFields (jLookup pkg "dependencies"), asFields (jLookup pkg "devDependencies") with
      | some d1, some d2 =>
        firstFramework frameworks
          (fun m => (jKeys d1).contains m || (jKeys d2).contains m)
      | _, _ => none
    | _ => none

/-- ProjectAnalyzer._detect_java_framework: pom.xml, then build.gradle, then
build.gradle.kts, raw containment. -/
def detect_java_framework (fs : FS) (frameworks : List (String × List String)) :
    Option String :=
  match scanManifestRaw fs ["pom.xml"] frameworks with
  | some f => some f
  | none =>
    match scanManifestRaw fs ["build.gradle"] frameworks with
    | some f => some f
    | none => scanManifestRaw fs ["build.gradle.kts"] frameworks

/-- ProjectAnalyzer._detect_framework: a language missing from the table
answers None at once; otherwise the per-language scanner runs. -/
def detect_framework (fs : FS) (language : String) : Option String :=
  match (FRAMEWORK_DETECTION.find? (fun e => e.1 == language)).map (·.2) with
  | none => none
  | some frameworks =>
    if language == "python" then detect_python_framework fs frameworks
    else if language == "node" || language == "typescript" then
      detect_node_framework fs frameworks
    else if language == "java" || language == "kotlin" then
      detect_java_framework fs frameworks
    else if language == "go" then detect_go_framework fs frameworks
    else none

/-! ## ProjectAnalyzer: dependencies, artifact strategy, aggregate analysis -/

/-- One line of requirements.txt: skipped when blank or a comment, else cut
before the first version operator. -/
def pythonDepLine (line : String) : Option String :=
  let l := trimS line
  if l.data.isEmpty || startsWithS "#" l then none
  else some (firstChunk "~=" (firstChunk ">=" (firstChunk "==" l)))

/-- The python branch of _detect_dependencies. -/
def detect_python_deps (fs : FS) : List String :=
  match readFile fs ["requirements.txt"] with
  | none => []
  | some content => (linesOf content).filterMap pythonDepLine

/-- The node branch of _detect_dependencies: dependency keys of
package.json, an exception inside the try block leaving the list empty. -/
def detect_node_deps (fs : FS) : List String :=
  match readFile fs ["package.json"] with
  | none => []
  | some content =>
    match jsonParse content with
    | some (.jobj pkg) =>
      match jLookup pkg "dependencies" with
      | some (.jobj d) => jKeys d
      | some _ => []
      | none => []
    | _ => []

/-- The go.mod require-block walk of _detect_dependencies.  The single-line
require branch tokenizes an all-whitespace remainder without a guard, so a
line whose text the replace call reduces to whitespace raises IndexError. -/
def goDepsLoop : List String → Bool → Except PyErr (List String)
  | [], _ => .ok []
  | l0 :: ls, inReq =>
    let line := trimS l0
    if startsWithS "require (" line then goDepsLoop ls true
    else if inReq then
      if line == ")" then .ok []
      else if !line.data.isEmpty && !startsWithS "//" line then
        match (pyWords line)[0]? with
        | some dep => (goDepsLoop ls true).map (fun ds => dep :: ds)
        | none => goDepsLoop ls true
      else goDepsLoop ls true
    else if startsWithS "require " line && !line.data.contains '(' then
      match (pyWords (trimS (replaceS "require" "" line)))[0]? with
      | some dep => (goDepsLoop ls false).map (fun ds => dep :: ds)
      | none => .error .indexError
    else goDepsLoop ls false

/-- The go branch of _detect_dependencies. -/
def detect_go_deps (fs : FS) : Except PyErr (List String) :=
  match readFile fs ["go.mod"] with
  | none => .ok []
  | some content => goDepsLoop (linesOf content) false

/-- Lazy capture of re.findall inside one artifactId element: the shortest
run of non-newline characters before the closing tag. -/
def captureArtifact (acc : List Char) : List Char → Option (String × List Char)
  | [] => none
  | c :: rest =>
    if "</artifactId>".data.isPrefixOf (c :: rest) then
      some (acc.reverse.asString, (c :: rest).drop 13)
    else if c == '\n' then none
    else captureArtifact (c :: acc) rest

/-- re.findall of the artifactId pattern: non-overlapping matches, the scan
resuming after each complete match. -/
def findArtifacts : Nat → List Char → List String
  | 0, _ => []
  | _, [] => []
  | fuel + 1, c :: rest =>
    if "<artifactId>".data.isPrefixOf (c :: rest) then
      match captureArtifact [] ((c :: rest).drop 12) with
      | some (cap, r2) => cap :: findArtifacts fuel r2
      | none => findArtifacts fuel rest
    else findArtifacts fuel rest

/-- The java branch of _detect_dependencies: the first twenty artifact ids of
pom.xml. -/
def detect_java_deps (fs : FS) : List String :=
  match readFile fs ["pom.xml"] with
  | none => []
  | some content => (findArtifacts content.data.length content.data).take 20

/-- ProjectAnalyzer._detect_dependencies: the per-language walk, capped at
ten entries on every path. -/
def detect_dependencies (fs : FS) (language : String) : Except PyErr (List String) :=
  (if language == "python" then .ok (detect_python_deps fs)
   else if language == "node" || language == "typescript" then .ok (detect_node_deps fs)
   else if language == "go" then detect_go_deps fs
   else if language == "java" || language == "kotlin" then .ok (detect_java_deps fs)
   else .ok []).map (fun d => d.take 10)

/-- The record _detect_artifact_paths returns. -/
structure ArtifactStrategy where
  build_command : String
  artifact_path : String
  artifact_name : String
  artifact_type : String
deriving DecidableEq, Repr

/-- The static per-language artifact table of _detect_artifact_paths. -/
def ARTIFACT_PATHS : List (String × ArtifactStrategy) :=
  [ ("python", ⟨"python setup.py bdist_wheel", "dist/*.whl", "*.whl", "wheel"⟩),
    ("go", ⟨"go build -o app .", "app", "app", "binary"⟩),
    ("node", ⟨"npm run build && npm pack", "*.tgz", "*.tgz", "npm"⟩),
    ("typescript", ⟨"npm run build && npm pack", "*.tgz", "*.tgz", "npm"⟩),
    ("java", ⟨"mvn clean package", "target/*.jar", "*.jar", "jar"⟩),
    ("kotlin", ⟨"mvn clean package", "target/*.jar", "*.jar", "jar"⟩),
    ("php", ⟨"composer install --no-dev", "vendor/", "vendor", "composer"⟩),
    ("rust", ⟨"cargo build --release", "target/release/app", "app", "binary"⟩),
    ("ruby", ⟨"gem build *.gemspec", "*.gem", "*.gem", "gem"⟩) ]

/-- The generic fallback strategy of _detect_artifact_paths for a language
absent from the table. -/
def artifactFallback : ArtifactStrategy :=
  ⟨"echo \"No build command\"", "*", "*", "unknown"⟩

/-- ProjectAnalyzer._detect_artifact_paths: a pure table lookup with the
generic fallback. -/
def detect_artifact_paths (language : String) : ArtifactStrategy :=
  ((ARTIFACT_PATHS.find? (fun e => e.1 == language)).map (·.2)).getD artifactFallback

/-- The artifact kinds the specification declares. -/
inductive ArtifactKind where
  | wheel
  | binary
  | npm
  | jar
  | composer
  | gem
  | unknown
deriving DecidableEq, Repr

/-- The enum member a produced artifact-type string denotes, if any. -/
def artifactKindOf : String → Option ArtifactKind
  | "wheel" => some .wheel
  | "binary" => some .binary
  | "npm" => some .npm
  | "jar" => some .jar
  | "composer" => some .composer
  | "gem" => some .gem
  | "unknown" => some .unknown
  | _ => none

/-- ProjectAnalyzer._get_build_image. -/
def get_build_image (language version : String) : String :=
  if language == "python" then "python:" ++ version ++ "-slim"
  else if language == "go" then "golang:" ++ version ++ "-alpine"
  else if language == "node" then "node:" ++ version ++ "-alpine"
  else if language == "typescript" then "node:" ++ version ++ "-alpine"
  else if language == "java" then "maven:3.9-eclipse-temurin-" ++ version
  else if language == "kotlin" then "maven:3.9-eclipse-temurin-" ++ version
  else if language == "php" then "php:" ++ version ++ "-cli"
  else if language == "rust" then "rust:" ++ version
  else if language == "ruby" then "ruby:" ++ version ++ "-alpine"
  else "alpine:latest"

/-- DockerfileParser.extract_base_images. -/
def extract_base_images (content : String) : List String :=
  (linesOf content).filterMap (fun line =>
    let l := trimS line
    if l.data.isEmpty || startsWithS "#" l then none
    else if startsWithS "FROM " l then
      match (pyWords (trimS ⟨l.data.drop 5⟩))[0]? with
      | some img => if img != "scratch" then some img else none
      | none => none
    else none)

/-- DockerfileParser.get_final_base_image, raising when no FROM instruction
was found. -/
def dockerfile_final_image (content : String) : Except PyErr String :=
  match (extract_base_images content).getLast? with
  | some img => .ok img
  | none => .error (.valueError "❌ В Dockerfile нет FROM инструкции!")

/-- ProjectAnalyzer._check_docker_compose. -/
def check_docker_compose (fs : FS) : Bool :=
  ["docker-compose.yml", "docker-compose.yaml", "compose.yml", "compose.yaml"].any
    (fun f => pathPresent fs [f])

/-- The spec-level classification record the aggregate call assembles
(language, version, framework, dependencies, artifact strategy, Dockerfile
and compose facts). -/
structure ProjectClassification where
  language_info : LangInfo
  version : String
  framework : Option String
  dependencies : List String
  dockerfile_exists : Bool
  docker_compose_exists : Bool
  base_image : String
  artifact_paths : ArtifactStrategy
deriving DecidableEq, Repr

/-- Step 8 of _analyze: the final base image comes from parsing an existing
Dockerfile (which raises on a FROM-less file) and otherwise from the build
image table. -/
def resolve_base_image (fs : FS) (language version : String) : Except PyErr String :=
  if pathPresent fs ["Dockerfile"] then
    match readFile fs ["Dockerfile"] with
    | some content => dockerfile_final_image content
    | none => .error .osError
  else .ok (get_build_image language version)

/-- ProjectAnalyzer._analyze with Dockerfile generation disabled (the
constructor default).  Steps of the source outside the spec-level record --
docker-compose service extraction and the environment summary -- wrap every
read and parse in try/except, raise nothing and feed no field modelled here,
so they are omitted; every step that can raise is kept: the unknown-language
ValueError, the go version and go dependency IndexError paths, and the
ValueError of parsing a FROM-less Dockerfile. -/
def analyze (fs : FS) : Except PyErr ProjectClassification :=
  let li := detect_language fs
  if li.language == "unknown" then
    .error (.valueError "❌ Не удалось определить язык проекта!")
  else
    match detect_version fs li.language with
    | .error e => .error e
    | .ok version =>
      match detect_dependencies fs li.language with
      | .error e => .error e
      | .ok deps =>
        match resolve_base_image fs li.language version with
        | .error e => .error e
        | .ok img =>
          .ok ⟨li, version, detect_framework fs li.language, deps,
            pathPresent fs ["Dockerfile"], check_docker_compose fs, img,
            detect_artifact_paths li.language⟩

/-! ## TestFramework (src/test_analyzer.py): discovery and language inference -/

/-- The TestType enum of the source. -/
inductive TestType where
  | PYTEST | UNITTEST | NOSE | DJANGO | FASTAPI | FLASK | STARLETTE
  | JEST | MOCHA | JASMINE | CYPRESS | PLAYWRIGHT | VITEST
  | JUNIT | TESTNG | SPOCK | MAVEN_SUREFIRE
  | GO_TEST | GOCHECK | TESTIFY
  | GOOGLE_TEST | CATCH2 | BOOST_TEST | CPPUNIT
  | NUNIT | XUNIT | MSTEST
  | PHPUNIT
  | RSPEC | MINITEST
  | UNKNOWN
deriving DecidableEq, Repr

/-- The test-file glob catalogue exactly as the Python list literal evaluates:
a missing comma after the fifth python pattern fuses it with the first
JavaScript pattern into one string, which pathlib later rejects (a double
star must stand alone in its component), so the fused pattern is skipped by
the surrounding try/except and both of its halves are lost. -/
def test_patterns : List String :=
  [ "**/test_*.py", "**/*_test.py", "**/test/**/*.py", "**/tests/**/*.py",
    "tests/**/*.py**/*.test.js",
    "**/*.test.ts", "**/*.spec.js", "**/*.spec.ts",
    "**/test/**/*.js", "**/test/**/*.ts", "**/cypress/**/*.js", "**/cypress/**/*.ts",
    "**/src/test/java/**/*Test.java", "**/src/test/java/**/*Tests.java",
    "**/test/java/**/*Test.java", "**/test/java/**/*Tests.java",
    "**/test/**/*Test.java", "**/test/**/*Tests.java",
    "**/*Test.java", "**/*Tests.java",
    "**/*_test.go",
    "**/*_test.cpp", "**/test/**/*.cpp",
    "**/*Test.cs", "**/test/**/*.cs",
    "**/*Test.php", "**/test/**/*.php",
    "**/*_spec.rb", "**/test/**/*.rb" ]

/-- pathlib glob over split components: a lone double-star component matches
any number of leading path components, every other component is an fnmatch
test (pathlib does not special-case hidden names). -/
def globCompsF : Nat → List (List Char) → List String → Bool
  | 0, p, s => p.isEmpty && s.isEmpty
  | fuel + 1, p, s =>
    match p, s with
    | [], [] => true
    | [], _ :: _ => false
    | pc :: ps, comps =>
      if pc == "**".data then
        globCompsF fuel ps comps ||
          (match comps with
           | [] => false
           | _ :: cs => globCompsF fuel (pc :: ps) cs)
      else
        match comps with
        | [] => false
        | c :: cs =>
          wildMatchF (pc.length + c.length) pc c.data && globCompsF fuel ps cs

/-- pathlib rejects a pattern with a double star embedded in a larger
component (ValueError, swallowed by the try/except around each glob call). -/
def validComps (comps : List (List Char)) : Bool :=
  comps.all (fun c => !listSub "**".data c || c == "**".data)

/-- Whether a relative path (component list) is matched by one glob pattern
string, an invalid pattern matching nothing. -/
def matchesPattern (pattern : String) (rel : List String) : Bool :=
  let comps := splitCharAux (fun c => c == '/') pattern.data []
  validComps comps && globCompsF (comps.length + rel.length + 1) comps rel

/-- The path relative to a base directory, for entries strictly below it. -/
def relUnder (base p : List String) : Option (List String) :=
  if base.isPrefixOf p && base.length < p.length then some (p.drop base.length) else none

/-- TestFramework.discover_test_files: the union over the glob catalogue of
the files below the search path, deduplicated (the source collapses the
per-pattern lists through a set; the snapshot order stands in for the
unspecified set order). -/
def discover_test_files (fs : FS) (sp : List String) : List (List String) :=
  fs.files.filterMap (fun f =>
    match relUnder sp f.path with
    | none => none
    | some rel =>
      if test_patterns.any (fun pat => matchesPattern pat rel) then some f.path
      else none)

/-- The mutable state of a TestFramework instance that the claims touch: the
test-file list the discover call overwrites and detect reads. -/
structure TFState where
  test_files : List (List String)
deriving DecidableEq, Repr

/-- TestFramework.discover_test_files as the state transformer it is: the
stored list is overwritten, whatever it held. -/
def discover_test_files_m (fs : FS) (_st : TFState) (sp : List String) :
    List (List String) × TFState :=
  let tfs := discover_test_files fs sp
  (tfs, ⟨tfs⟩)

/-- pathlib suffix of a file name: the part from the last dot, unless that
dot is the first or last character. -/
def pathSuffix (name : String) : String :=
  match name.data.reverse.findIdx? (fun c => c == '.') with
  | none => ""
  | some j =>
    let i := name.data.length - 1 - j
    if 0 < i && i < name.data.length - 1 then ⟨name.data.drop i⟩ else ""

/-- The last component of a path (the file name). -/
def lastName (p : List String) : String :=
  (p.getLast?).getD ""

/-- The extension-to-language table of _detect_project_language, in source
order. -/
def LANG_PATTERNS : List (String × String) :=
  [ (".py", "Python"), (".js", "JavaScript"), (".ts", "TypeScript"),
    (".java", "Java"), (".go", "Go"), (".cpp", "C++"), (".cc", "C++"),
    (".cxx", "C++"), (".cs", "C#"), (".php", "PHP"), (".rb", "Ruby") ]

/-- Counting occurrences while preserving first-seen order, as a Python dict
of counters. -/
def bumpCount (key : String) : List (String × Nat) → List (String × Nat)
  | [] => [(key, 1)]
  | e :: es => if e.1 == key then (e.1, e.2 + 1) :: es else e :: bumpCount key es

/-- The occurrence tally of a list of keys, in first-seen order. -/
def tally (l : List String) : List (String × Nat) :=
  l.foldl (fun acc k => bumpCount k acc) []

/-- Stable insertion, descending in the key, placing the new element after
existing equals; folded from the left this is Python stable sorted with
reverse set. -/
def insertDescBy {α : Type} (key : α → Nat) (x : α) : List α → List α
  | [] => [x]
  | y :: ys => if key y < key x then x :: y :: ys else y :: insertDescBy key x ys

/-- Stable descending sort by a numeric key. -/
def sortDescBy {α : Type} (key : α → Nat) (l : List α) : List α :=
  l.foldl (fun acc x => insertDescBy key x acc) []

/-- The suffixes of the files rglob("*.*") yields below the search path, in
the snapshot traversal order, blank suffixes dropped. -/
def extNames (fs : FS) (sp : List String) : List String :=
  fs.files.filterMap (fun f =>
    match relUnder sp f.path with
    | none => none
    | some rel =>
      let name := lastName rel
      if wmatch "*.*" name then
        let ext := pathSuffix name
        if ext.data.isEmpty then none else some ext
      else none)

/-- TestFramework._detect_project_language: the most frequent known
extension wins, earlier-seen extensions winning ties. -/
def detect_project_language (fs : FS) (sp : List String) : String :=
  let counts := sortDescBy (fun e => e.2) (tally (extNames fs sp))
  match counts.findSome? (fun e =>
      (LANG_PATTERNS.find? (fun lp => lp.1 == e.1)).map (·.2)) with
  | some lang => lang
  | none => "Unknown"

/-! ## TestFramework: per-language framework cascades -/

/-- Keyword chain of _detect_python_test_framework over one lower-cased
config file body. -/
def pyConfigContentCheck (content : String) : Option TestType :=
  let c := toLowerS content
  if substr "pytest" c || substr "pytest-" c then some .PYTEST
  else if substr "nose" c then some .NOSE
  else if substr "fastapi" c then some .FASTAPI
  else if substr "django" c then some .DJANGO
  else if substr "flask" c then some .FLASK
  else if substr "starlette" c then some .STARLETTE
  else none

/-- The config-file loop of the python cascade: a file that exists but
matches nothing lets the loop continue. -/
def pyConfigScan (fs : FS) (sp : List String) : Option TestType :=
  ["requirements.txt", "pyproject.toml", "setup.py", "Pipfile", "setup.cfg",
   "tox.ini"].findSome?
    (fun cf => (readFile fs (sp ++ [cf])).bind pyConfigContentCheck)

/-- Keyword chain over one lower-cased entry-point body. -/
def pyMainContentCheck (content : String) : Option TestType :=
  let c := toLowerS content
  if substr "fastapi" c || substr "from fastapi" c then some .FASTAPI
  else if substr "flask" c || substr "from flask" c then some .FLASK
  else none

/-- The entry-point loop of the python cascade. -/
def pyMainScan (fs : FS) (sp : List String) : Option TestType :=
  ["main.py", "app.py", "application.py"].findSome?
    (fun mf => (readFile fs (sp ++ [mf])).bind pyMainContentCheck)

/-- Keyword chain over one lower-cased test-file body. -/
def pyTestFileContentCheck (content : String) : Option TestType :=
  let c := toLowerS content
  if substr "import pytest" c || substr "from pytest" c || substr "@pytest" c then
    some .PYTEST
  else if substr "import unittest" c || substr "unittest.main" c || substr "testcase" c then
    some .UNITTEST
  else if substr "import nose" c then some .NOSE
  else if substr "testclient" c || substr "fastapi" c || substr "from fastapi" c then
    some .FASTAPI
  else if substr "django.test" c || substr "testcase" c || substr "from django" c then
    some .DJANGO
  else if substr "flask_testing" c || substr "flask.cli" c then some .FLASK
  else none

/-- The sampled test-file loop of the python cascade: only the first ten
stored files, only those with a python suffix. -/
def pyTestFileScan (fs : FS) (files : List (List String)) : Option TestType :=
  (files.take 10).findSome? (fun p =>
    if pathSuffix (lastName p) == ".py" then (readFile fs p).bind pyTestFileContentCheck
    else none)

/-- The pytest.ini existence check of the python cascade. -/
def pyIniCheck (fs : FS) (sp : List String) : Bool :=
  pathPresent fs (sp ++ ["pytest.ini"])

/-- The pyproject pytest-section check of the python cascade. -/
def pyprojectPytestCheck (fs : FS) (sp : List String) : Bool :=
  match readFile fs (sp ++ ["pyproject.toml"]) with
  | none => false
  | some c => substr "[tool.pytest]" c || substr "[tool.pytest.ini_options]" c

/-- TestFramework._detect_python_test_framework. -/
def detect_python_tf (fs : FS) (files : List (List String)) (sp : List String) : TestType :=
  match pyConfigScan fs sp with
  | some t => t
  | none =>
    match pyMainScan fs sp with
    | some t => t
    | none =>
      match pyTestFileScan fs files with
      | some t => t
      | none =>
        if pyIniCheck fs sp then .PYTEST
        else if pyprojectPytestCheck fs sp then .PYTEST
        else .PYTEST

/-- The package.json dependency probe of _detect_js_test_framework; any
exception in the try block falls through to the config-file checks. -/
def jsPkgScan (fs : FS) (sp : List String) : Option TestType :=
  match readFile fs (sp ++ ["package.json"]) with
  | none => none
  | some content =>
    match jsonParse content with
    | some (.jobj pkg) =>
      match asFields (jLookup pkg "dependencies"), asFields (jLookup pkg "devDependencies") with
      | some d1, some d2 =>
        let has := fun (k : String) => (jKeys d1).contains k || (jKeys d2).contains k
        if has "cypress" then some .CYPRESS
        else if has "jest" then some .JEST
        else if has "mocha" then some .MOCHA
        else if has "vitest" then some .VITEST
        else if has "playwright" then some .PLAYWRIGHT
        else if has "jasmine" then some .JASMINE
        else none
      | _, _ => none
    | _ => none

/-- TestFramework._detect_js_test_framework. -/
def detect_js_tf (fs : FS) (sp : List String) : TestType :=
  match jsPkgScan fs sp with
  | some t => t
  | none =>
    if pathPresent fs (sp ++ ["cypress"]) then .CYPRESS
    else if pathPresent fs (sp ++ ["playwright.config.js"]) ||
        pathPresent fs (sp ++ ["playwright.config.ts"]) then .PLAYWRIGHT
    else if pathPresent fs (sp ++ ["jest.config.js"]) ||
        pathPresent fs (sp ++ ["jest.config.ts"]) then .JEST
    else if pathPresent fs (sp ++ ["vitest.config.js"]) ||
        pathPresent fs (sp ++ ["vitest.config.ts"]) then .VITEST
    else if pathPresent fs (sp ++ [".mocharc.js"]) ||
        pathPresent fs (sp ++ [".mocharc.json"]) then .MOCHA
    else .JEST

/-- Keyword chain of the java cascade over one lower-cased build file. -/
def javaManifestCheck (content : String) : Option TestType :=
  let c := toLowerS content
  if substr "testng" c then some .TESTNG
  else if substr "spock" c then some .SPOCK
  else if substr "junit" c then some .JUNIT
  else none

/-- Token chain of the java cascade over one raw test-file body. -/
def javaFileCheck (content : String) : Option TestType :=
  if substr "@Test" content && substr "org.testng" content then some .TESTNG
  else if substr "extends Specification" content || substr "spock.lang" content then
    some .SPOCK
  else if substr "@Test" content && substr "org.junit" content then some .JUNIT
  else none

/-- TestFramework._detect_java_test_framework. -/
def detect_java_tf (fs : FS) (files : List (List String)) (sp : List String) : TestType :=
  match (readFile fs (sp ++ ["pom.xml"])).bind javaManifestCheck with
  | some t => t
  | none =>
    match (readFile fs (sp ++ ["build.gradle"])).bind javaManifestCheck with
    | some t => t
    | none =>
      match (files.take 5).findSome? (fun p => (readFile fs p).bind javaFileCheck) with
      | some t => t
      | none => .JUNIT

/-- Keyword chain of the go cascade over the lower-cased go.mod body. -/
def goModCheck (content : String) : Option TestType :=
  let c := toLowerS content
  if substr "gopkg.in/check.v1" c then some .GOCHECK
  else if substr "github.com/stretchr/testify" c then some .TESTIFY
  else none

/-- Token chain of the go cascade over one raw test-file body. -/
def goFileCheck (content : String) : Option TestType :=
  if substr "import .gopkg.in/check.v1" content || substr "gocheck" content then
    some .GOCHECK
  else if substr "github.com/stretchr/testify" content then some .TESTIFY
  else none

/-- TestFramework._detect_go_test_framework. -/
def detect_go_tf (fs : FS) (files : List (List String)) (sp : List String) : TestType :=
  match (readFile fs (sp ++ ["go.mod"])).bind goModCheck with
  | some t => t
  | none =>
    match (files.take 5).findSome? (fun p => (readFile fs p).bind goFileCheck) with
    | some t => t
    | none => .GO_TEST

/-- Keyword chain of the cpp cascade over the raw CMakeLists body. -/
def cmakeCheck (content : String) : Option TestType :=
  if substr "gtest" content || substr "GTest" content then some .GOOGLE_TEST
  else if substr "catch2" content then some .CATCH2
  else if substr "boost_test" content then some .BOOST_TEST
  else none

/-- Token chain of the cpp cascade over one raw test-file body. -/
def cppFileCheck (content : String) : Option TestType :=
  if substr "#include <gtest/gtest.h>" content || substr "TEST_F" content then
    some .GOOGLE_TEST
  else if substr "#include <catch2/catch.hpp>" content || substr "CATCH_TEST_CASE" content then
    some .CATCH2
  else if substr "#include <boost/test/unit_test.hpp>" content then some .BOOST_TEST
  else if substr "#include <cppunit/" content then some .CPPUNIT
  else none

/-- TestFramework._detect_cpp_test_framework. -/
def detect_cpp_tf (fs : FS) (files : List (List String)) (sp : List String) : TestType :=
  match (readFile fs (sp ++ ["CMakeLists.txt"])).bind cmakeCheck with
  | some t => t
  | none =>
    match (files.take 5).findSome? (fun p => (readFile fs p).bind cppFileCheck) with
    | some t => t
    | none => .GOOGLE_TEST

/-- The csproj files the recursive glob of the csharp cascade visits, in
snapshot order. -/
def csprojFilesUnder (fs : FS) (sp : List String) : List (List String) :=
  fs.files.filterMap (fun f =>
    match relUnder sp f.path with
    | none => none
    | some rel => if wmatch "*.csproj" (lastName rel) then some f.path else none)

/-- Keyword chain of the csharp cascade over one lower-cased project file. -/
def csprojCheck (content : String) : Option TestType :=
  let c := toLowerS content
  if substr "nunit" c then some .NUNIT
  else if substr "xunit" c then some .XUNIT
  else if substr "mstest" c then some .MSTEST
  else none

/-- Token chain of the csharp cascade over one raw test-file body. -/
def csFileCheck (content : String) : Option TestType :=
  if substr "[TestFixture]" content || substr "using NUnit.Framework" content then
    some .NUNIT
  else if substr "[Fact]" content || substr "using Xunit" content then some .XUNIT
  else if substr "[TestMethod]" content ||
      substr "using Microsoft.VisualStudio.TestTools.UnitTesting" content then
    some .MSTEST
  else none

/-- TestFramework._detect_csharp_test_framework. -/
def detect_csharp_tf (fs : FS) (files : List (List String)) (sp : List String) : TestType :=
  match (csprojFilesUnder fs sp).findSome? (fun p => (readFile fs p).bind csprojCheck) with
  | some t => t
  | none =>
    match (files.take 5).findSome? (fun p => (readFile fs p).bind csFileCheck) with
    | some t => t
    | none => .NUNIT

/-- The composer.json dependency probe of the php cascade. -/
def composerPhpunitCheck (fs : FS) (sp : List String) : Option TestType :=
  match readFile fs (sp ++ ["composer.json"]) with
  | none => none
  | some content =>
    match jsonParse content with
    | some (.jobj pkg) =>
      match asFields (jLookup pkg "require"), asFields (jLookup pkg "require-dev") with
      | some d1, some d2 =>
        if (jKeys d1).contains "phpunit/phpunit" || (jKeys d2).contains "phpunit/phpunit" then
          some .PHPUNIT
        else none
      | _, _ => none
    | _ => none

/-- Token chain of the php cascade over one raw test-file body. -/
def phpFileCheck (content : String) : Option TestType :=
  if substr "PHPUnit\\Framework\\TestCase" content ||
      substr "use PHPUnit\\Framework\\TestCase" content then
    some .PHPUNIT
  else none

/-- TestFramework._detect_php_test_framework. -/
def detect_php_tf (fs : FS) (files : List (List String)) (sp : List String) : TestType :=
  match composerPhpunitCheck fs sp with
  | some t => t
  | none =>
    match (files.take 5).findSome? (fun p => (readFile fs p).bind phpFileCheck) with
    | some t => t
    | none => .PHPUNIT

/-- Keyword chain of the ruby cascade over the raw Gemfile body. -/
def gemfileCheck (content : String) : Option TestType :=
  if substr "rspec" content then some .RSPEC
  else if substr "minitest" content then some .MINITEST
  else none

/-- Token chain of the ruby cascade over one raw test-file body. -/
def rubyFileCheck (content : String) : Option TestType :=
  if substr "describe" content && substr "RSpec" content then some .RSPEC
  else if substr "Minitest::Test" content || substr "MiniTest::Unit::TestCase" content then
    some .MINITEST
  else none

/-- TestFramework._detect_ruby_test_framework. -/
def detect_ruby_tf (fs : FS) (files : List (List String)) (sp : List String) : TestType :=
  match (readFile fs (sp ++ ["Gemfile"])).bind gemfileCheck with
  | some t => t
  | none =>
    if pathPresent fs (sp ++ ["spec"]) || pathPresent fs (sp ++ [".rspec"]) then .RSPEC
    else if pathPresent fs (sp ++ ["test"]) then .MINITEST
    else
      match (files.take 5).findSome? (fun p => (readFile fs p).bind rubyFileCheck) with
      | some t => t
      | none => .RSPEC

/-- Whether any stored test file carries one of the given pathlib suffixes. -/
def hasSuffixIn (files : List (List String)) (sufs : List String) : Bool :=
  files.any (fun p => sufs.contains (pathSuffix (lastName p)))

/-- The dispatch body of detect_test_type once test files are at hand: the
frequency-inferred project language first, then the suffix fallbacks, then
UNKNOWN. -/
def detect_core (fs : FS) (files : List (List String)) (sp : List String) : TestType :=
  let pl := detect_project_language fs sp
  if pl == "Java" then detect_java_tf fs files sp
  else if pl == "Python" then detect_python_tf fs files sp
  else if pl == "JavaScript" || pl == "TypeScript" then detect_js_tf fs sp
  else if pl == "Go" then detect_go_tf fs files sp
  else if pl == "C++" then detect_cpp_tf fs files sp
  else if pl == "C#" then detect_csharp_tf fs files sp
  else if pl == "PHP" then detect_php_tf fs files sp
  else if pl == "Ruby" then detect_ruby_tf fs files sp
  else if hasSuffixIn files [".py"] then detect_python_tf fs files sp
  else if hasSuffixIn files [".js", ".ts", ".jsx", ".tsx"] then detect_js_tf fs sp
  else if hasSuffixIn files [".java"] then detect_java_tf fs files sp
  else if hasSuffixIn files [".go"] then detect_go_tf fs files sp
  else if hasSuffixIn files [".cpp", ".cc", ".cxx"] then detect_cpp_tf fs files sp
  else if hasSuffixIn files [".cs"] then detect_csharp_tf fs files sp
  else if hasSuffixIn files [".php"] then detect_php_tf fs files sp
  else if hasSuffixIn files [".rb"] then detect_ruby_tf fs files sp
  else .UNKNOWN

/-- TestFramework.detect_test_type: the stored test-file list is reused when
non-empty and only re-discovered when empty, so earlier calls on other paths
leak into the answer. -/
def detect_test_type (fs : FS) (st : TFState) (sp : List String) : TestType × TFState :=
  let st1 := if st.test_files.isEmpty then ⟨discover_test_files fs sp⟩ else st
  if st1.test_files.isEmpty then (.UNKNOWN, st1)
  else (detect_core fs st1.test_files sp, st1)

/-! ## TestFramework: multi-project discovery

Confidence scores are sums of the float weights 2.0, 1.0 and 0.5, which are
all exact binary fractions, so the Python float arithmetic is exact; the
embedding therefore counts in half points (strong 4, medium 2, weak 1,
acceptance threshold 2 for the source threshold 1.0) to stay in integer
arithmetic. -/

/-- The strong indicators of _analyze_project_candidate probed by exact
existence, in source order; the csproj glob follows them. -/
def STRONG_INDICATORS : List String :=
  [ "requirements.txt", "package.json", "pom.xml", "go.mod", "setup.py",
    "pyproject.toml", "Cargo.toml", "composer.json", "Gemfile" ]

/-- The medium indicators (conventional directories, probed by existence). -/
def MEDIUM_INDICATORS : List String := ["src", "tests", "test", "lib"]

/-- The weak indicators. -/
def WEAK_INDICATORS : List String := ["README.md", ".gitignore", "LICENSE"]

/-- The pathlib csproj glob of the strong tier: any entry directly inside the
candidate whose name matches. -/
def csprojGlobHit (fs : FS) (child : String) : Bool :=
  (entriesUnder fs [child]).any (fun n => wmatch "*.csproj" n)

/-- The names of the strong matches, in indicator order, the csproj glob
represented by the dummy name the source appends. -/
def strongMatchNames (fs : FS) (child : String) : List String :=
  (STRONG_INDICATORS.filter (fun ind => pathPresent fs [child, ind])) ++
    (if csprojGlobHit fs child then ["dummy.csproj"] else [])

/-- The file-to-language map of _detect_language_from_files, in source
order. -/
def LANG_FILE_MAPPING : List (String × String) :=
  [ ("requirements.txt", "Python"), ("setup.py", "Python"),
    ("pyproject.toml", "Python"), ("package.json", "JavaScript"),
    ("pom.xml", "Java"), ("build.gradle", "Java"), ("go.mod", "Go"),
    ("Cargo.toml", "Rust"), ("composer.json", "PHP"), ("Gemfile", "Ruby"),
    ("*.csproj", "C#") ]

/-- TestFramework._detect_language_from_files: the first matched file wins,
probing the map in its insertion order. -/
def detect_language_from_files (files : List String) : String :=
  match files.findSome? (fun name =>
      LANG_FILE_MAPPING.findSome? (fun pm =>
        if pm.1 == "*.csproj" then
          if endsWithS ".csproj" name then some pm.2 else none
        else if name == pm.1 then some pm.2 else none)) with
  | some l => l
  | none => "Unknown"

/-- The ProjectInfo record of the source with the confidence in half
points. -/
structure ProjectInfo where
  path : List String
  name : String
  language : String
  halfConfidence : Nat
deriving DecidableEq, Repr

/-- The additive candidate score in half points: four per strong match, two
per medium indicator, one per weak indicator. -/
def candidateHalfScore (fs : FS) (child : String) : Nat :=
  4 * (strongMatchNames fs child).length +
    2 * (MEDIUM_INDICATORS.filter (fun ind => pathPresent fs [child, ind])).length +
    (WEAK_INDICATORS.filter (fun ind => pathPresent fs [child, ind])).length

/-- TestFramework._analyze_project_candidate: accepted only at or above the
threshold of 1.0 (two half points), the language guessed from the strong
matches alone. -/
def analyze_project_candidate (fs : FS) (child : String) : Option ProjectInfo :=
  let strong := strongMatchNames fs child
  let language := if strong.isEmpty then "Unknown" else detect_language_from_files strong
  if 2 ≤ candidateHalfScore fs child then
    some ⟨[child], child, language, candidateHalfScore fs child⟩
  else none

/-- The non-hidden immediate child directories of the base path, in listing
order. -/
def childCandidates (fs : FS) : List String :=
  (entriesUnder fs []).filter (fun n => entryIsDir fs [] n && !startsWithS "." n)

/-- TestFramework.discover_projects: every accepted candidate, stably sorted
by descending confidence. -/
def discover_projects (fs : FS) : List ProjectInfo :=
  sortDescBy (fun p => p.halfConfidence)
    ((childCandidates fs).filterMap (analyze_project_candidate fs))

/-! ## Shared helper lemmas -/

/-- Any hit of findSome? comes from a member of the list. -/
theorem findSome?_mem {α β : Type} {f : α → Option β} {b : β} :
    ∀ {l : List α}, l.findSome? f = some b → ∃ a ∈ l, f a = some b := by
  intro l
  induction l with
  | nil => intro h; simp [List.findSome?] at h
  | cons x xs ih =>
    intro h
    rw [List.findSome?_cons] at h
    cases hfx : f x with
    | some v =>
      rw [hfx] at h
      simp at h
      exact ⟨x, by simp, by rw [hfx, h]⟩
    | none =>
      rw [hfx] at h
      simp at h
      obtain ⟨a, ha, hfa⟩ := ih h
      exact ⟨a, by simp [ha], hfa⟩

/-- Membership is invariant under the stable descending insertion. -/
theorem mem_insertDescBy {α : Type} (key : α → Nat) (x z : α) :
    ∀ (l : List α), z ∈ insertDescBy key x l ↔ z = x ∨ z ∈ l := by
  intro l
  induction l with
  | nil => simp [insertDescBy]
  | cons y ys ih =>
    rw [insertDescBy]
    by_cases hk : key y < key x
    · rw [if_pos hk]
      simp [List.mem_cons]
    · rw [if_neg hk]
      simp only [List.mem_cons, ih]
      tauto

/-- The stable descending insertion preserves descending pairwise order. -/
theorem pairwise_insertDescBy {α : Type} (key : α → Nat) (x : α) :
    ∀ (l : List α), l.Pairwise (fun a b => key b ≤ key a) →
      (insertDescBy key x l).Pairwise (fun a b => key b ≤ key a) := by
  intro l
  induction l with
  | nil => intro _; simp [insertDescBy]
  | cons y ys ih =>
    intro h
    rw [List.pairwise_cons] at h
    obtain ⟨hy, hys⟩ := h
    rw [insertDescBy]
    by_cases hk : key y < key x
    · rw [if_pos hk]
      rw [List.pairwise_cons]
      refine ⟨?_, ?_⟩
      · intro z hz
        rw [List.mem_cons] at hz
        rcases hz with rfl | hz
        · omega
        · exact le_trans (hy z hz) (Nat.le_of_lt hk)
      · rw [List.pairwise_cons]
        exact ⟨hy, hys⟩
    · rw [if_neg hk]
      rw [List.pairwise_cons]
      refine ⟨?_, ih hys⟩
      intro z hz
      rw [mem_insertDescBy] at hz
      rcases hz with rfl | hz
      · omega
      · exact hy z hz

/-- Membership is invariant under the stable descending sort. -/
theorem mem_sortDescBy {α : Type} (key : α → Nat) (z : α) (l : List α) :
    z ∈ sortDescBy key l ↔ z ∈ l := by
  unfold sortDescBy
  suffices h : ∀ (l acc : List α),
      z ∈ l.foldl (fun acc x => insertDescBy key x acc) acc ↔ z ∈ acc ∨ z ∈ l by
    rw [h l []]; simp
  intro l
  induction l with
  | nil => intro acc; simp
  | cons x xs ih =>
    intro acc
    rw [List.foldl_cons, ih]
    rw [mem_insertDescBy]
    simp only [List.mem_cons]
    tauto

/-- The stable descending sort sorts. -/
theorem pairwise_sortDescBy {α : Type} (key : α → Nat) (l : List α) :
    (sortDescBy key l).Pairwise (fun a b => key b ≤ key a) := by
  unfold sortDescBy
  suffices h : ∀ (l acc : List α), acc.Pairwise (fun a b => key b ≤ key a) →
      (l.foldl (fun acc x => insertDescBy key x acc) acc).Pairwise
        (fun a b => key b ≤ key a) by
    exact h l [] (by simp)
  intro l
  induction l with
  | nil => intro acc h; simpa using h
  | cons x xs ih =>
    intro acc h
    rw [List.foldl_cons]
    exact ih _ (pairwise_insertDescBy key x acc h)

/-! ## Claim theorems -/

/-- C9: framework detection answers null for php, rust and ruby on every
directory tree, these languages having no entry in the framework table, even
when the manifest names a well-known framework (a Gemfile naming rails). -/
theorem c9_no_framework_for_php_rust_ruby :
    (∀ fs : FS, detect_framework fs "php" = none) ∧
    (∀ fs : FS, detect_framework fs "rust" = none) ∧
    (∀ fs : FS, detect_framework fs "ruby" = none) ∧
    (detect_framework ⟨[⟨["Gemfile"], "gem \"rails\""⟩], []⟩ "ruby" = none ∧
      substr "rails" "gem \"rails\"" = true) := by
  refine ⟨fun fs => rfl, fun fs => rfl, fun fs => rfl, by decide⟩

/-- C10: the dependency list is capped at ten entries for every tree and
every language, both at the resolver and in the record the aggregate
classification returns. -/
theorem c10_dependencies_capped :
    (∀ (fs : FS) (language : String) (deps : List String),
        detect_dependencies fs language = .ok deps → deps.length ≤ 10) ∧
    (∀ (fs : FS) (r : ProjectClassification),
        analyze fs = .ok r → r.dependencies.length ≤ 10) := by
  have hcap : ∀ (fs : FS) (language : String) (deps : List String),
      detect_dependencies fs language = .ok deps → deps.length ≤ 10 := by
    intro fs language deps h
    unfold detect_dependencies at h
    set base := (if language == "python" then Except.ok (detect_python_deps fs)
      else if language == "node" || language == "typescript" then
        Except.ok (detect_node_deps fs)
      else if language == "go" then detect_go_deps fs
      else if language == "java" || language == "kotlin" then
        Except.ok (detect_java_deps fs)
      else Except.ok ([] : List String)) with hbase
    clear_value base
    cases base with
    | error e => simp [Except.map] at h
    | ok l =>
      simp [Except.map] at h
      rw [← h]
      calc (l.take 10).length = min 10 l.length := List.length_take _ _
        _ ≤ 10 := Nat.min_le_left _ _
  refine ⟨hcap, ?_⟩
  intro fs r h
  unfold analyze at h
  dsimp only at h
  split at h
  · exact absurd h (by simp)
  · split at h
    · exact absurd h (by simp)
    · split at h
      · exact absurd h (by simp)
      · next deps hdeps =>
        split at h
        · exact absurd h (by simp)
        · simp only [Except.ok.injEq] at h
          have hr : r.dependencies = deps := by rw [← h]
          exact hr ▸ hcap fs (detect_language fs).language deps hdeps

/-- C10 witness: a concrete python tree with twelve requirement lines is
capped at ten dependencies. -/
theorem c10_witness :
    detect_dependencies
        ⟨[⟨["requirements.txt"],
           "a\nb\nc\nd\ne\nf\ng\nh\ni\nj\nk\nl"⟩], []⟩ "python" =
      .ok ["a", "b", "c", "d", "e", "f", "g", "h", "i", "j"] ∧
    (["a", "b", "c", "d", "e", "f", "g", "h", "i", "j"] : List String).length ≤ 10 :=
  ⟨by decide, c10_dependencies_capped.1
    ⟨[⟨["requirements.txt"], "a\nb\nc\nd\ne\nf\ng\nh\ni\nj\nk\nl"⟩], []⟩ "python"
    ["a", "b", "c", "d", "e", "f", "g", "h", "i", "j"] (by decide)⟩

/-- C7 counterexample: for a language absent from the table the fallback
build command is the string echo "No build command" (capitalised, quoted),
not the plain text the claim quotes. -/
theorem c7_counterexample :
    (detect_artifact_paths "haskell").build_command = "echo \"No build command\"" ∧
    (detect_artifact_paths "haskell").build_command ≠ "echo no build command" := by
  decide

/-- C7 amended: artifact-strategy resolution is total and closed over the
artifact-kind enum — every registered language maps to a declared kind, any
absent language receives exactly the generic fallback (build command
echo "No build command", glob star, kind unknown), and no error path
exists. -/
theorem c7_artifact_strategy_total :
    (∀ lang ∈ ARTIFACT_PATHS.map (fun e => e.1),
        (artifactKindOf (detect_artifact_paths lang).artifact_type).isSome = true) ∧
    (∀ lang : String, lang ∉ ARTIFACT_PATHS.map (fun e => e.1) →
        detect_artifact_paths lang = artifactFallback) ∧
    artifactKindOf artifactFallback.artifact_type = some .unknown := by
  refine ⟨?_, ?_, by decide⟩
  · intro lang hl
    fin_cases hl <;> decide
  · intro lang hl
    unfold detect_artifact_paths
    rw [List.find?_eq_none.mpr]
    · rfl
    intro e he
    simp only [beq_iff_eq]
    intro hcontra
    exact hl (hcontra ▸ List.mem_map_of_mem (fun e => e.1) he)

/-- C7 witness: a concrete absent language receives the fallback. -/
theorem c7_witness :
    ("cobol" ∉ ARTIFACT_PATHS.map (fun e => e.1)) ∧
    detect_artifact_paths "cobol" = artifactFallback :=
  ⟨by decide, c7_artifact_strategy_total.2.1 "cobol" (by decide)⟩

/-- The go.mod snapshot whose go directive line carries no version token:
the version resolver indexes the token list without a guard there. -/
def goBugFS : FS := ⟨[⟨["go.mod"], "module example.com/app\ngo \n"⟩], []⟩

/-- C4: the per-language defaults hold on an empty tree exactly as claimed,
but version resolution is not exception-free — on a go.mod whose go
directive line holds no second token the resolver raises IndexError
(line.split()[1] in _detect_go_version), contradicting the never-raises
claim the spec states. -/
theorem c4_version_defaults_and_go_crash :
    detect_version ⟨[], []⟩ "python" = .ok "3.11" ∧
    detect_version ⟨[], []⟩ "go" = .ok "1.21" ∧
    detect_version ⟨[], []⟩ "node" = .ok "20" ∧
    detect_version ⟨[], []⟩ "typescript" = .ok "20" ∧
    detect_version ⟨[], []⟩ "java" = .ok "17" ∧
    detect_version ⟨[], []⟩ "kotlin" = .ok "17" ∧
    detect_version ⟨[], []⟩ "php" = .ok "8.2" ∧
    detect_version ⟨[], []⟩ "ruby" = .ok "3.2" ∧
    detect_version ⟨[], []⟩ "rust" = .ok "latest" ∧
    detect_version goBugFS "go" = .error .indexError := by
  decide

/-- The project tree of the C1 failing input: a go project whose go.mod
holds a go directive with no version token. -/
def c1GoFS : FS := ⟨[⟨["go.mod"], "module demo\ngo \n"⟩], []⟩

/-- C1: the empty directory raises exactly the language-undetectable
ValueError, as claimed; but the aggregate classification can also let an
IndexError escape (go version resolution inside _analyze), so the
language-undetectable error is not the only error kind. -/
theorem c1_classification_error_kinds :
    analyze ⟨[], []⟩ = .error (.valueError "❌ Не удалось определить язык проекта!") ∧
    analyze c1GoFS = .error .indexError := by
  decide

/-- A language entry has a matching high-tier marker in the tree. -/
def hasHighMarkerB (fs : FS) (markers : List String × List String) : Bool :=
  markers.1.any (fun m => file_exists fs m)

/-- A language entry has any matching marker, of either tier, in the tree. -/
def hasAnyMarkerB (fs : FS) (markers : List String × List String) : Bool :=
  markers.1.any (fun m => file_exists fs m) || markers.2.any (fun m => file_exists fs m)

/-- A language with no marker match contributes nothing to the detections
dictionary. -/
theorem detectOne_eq_none {fs : FS} {markers : List String × List String}
    (h : hasAnyMarkerB fs markers = false) : detectOne fs markers = none := by
  unfold hasAnyMarkerB at h
  rw [Bool.or_eq_false_iff] at h
  have h1 : markers.1.find? (fun m => file_exists fs m) = none :=
    List.find?_eq_none.mpr (fun m hm => List.any_eq_false.mp h.1 m hm)
  have h2 : markers.2.find? (fun m => file_exists fs m) = none :=
    List.find?_eq_none.mpr (fun m hm => List.any_eq_false.mp h.2 m hm)
  unfold detectOne
  rw [h1, h2]
  rfl

/-- A language with a high-tier match contributes a high-confidence entry. -/
theorem detectOne_high {fs : FS} {markers : List String × List String}
    (h : hasHighMarkerB fs markers = true) :
    ∃ m, detectOne fs markers = some (.high, m) := by
  unfold hasHighMarkerB at h
  rw [List.any_eq_true] at h
  obtain ⟨m, hm, hfe⟩ := h
  have : (markers.1.find? (fun m => file_exists fs m)).isSome = true := by
    rw [List.find?_isSome]
    exact ⟨m, hm, hfe⟩
  obtain ⟨m0, hm0⟩ := Option.isSome_iff_exists.mp this
  exact ⟨m0, by unfold detectOne; rw [hm0]⟩

/-- When exactly one language matches, the detections dictionary is that
singleton. -/
theorem detections_singleton (fs : FS) :
    ∀ (reg : List (String × List String × List String)) (L : String)
      (hm : List String × List String) (d : Confidence × String),
      (reg.map (fun e => e.1)).Nodup →
      (L, hm) ∈ reg →
      detectOne fs hm = some d →
      (∀ e ∈ reg, e.1 ≠ L → detectOne fs e.2 = none) →
      reg.filterMap (fun lm => (detectOne fs lm.2).map (fun x => (lm.1, x))) = [(L, d)] := by
  intro reg
  induction reg with
  | nil => intro L hm d _ hmem; simp at hmem
  | cons e0 rest ih =>
    intro L hm d hnd hmem hdet hothers
    rw [List.map_cons, List.nodup_cons] at hnd
    obtain ⟨hnotin, hndrest⟩ := hnd
    by_cases he0 : e0.1 = L
    · have hm0 : e0.2 = hm := by
        rcases List.mem_cons.mp hmem with heq | hrest
        · rw [← heq]
        · exfalso
          apply hnotin
          rw [he0]
          exact List.mem_map_of_mem (fun e => e.1) hrest
      rw [List.filterMap_cons, hm0, hdet]
      have hrest_nil :
          rest.filterMap (fun lm => (detectOne fs lm.2).map (fun x => (lm.1, x))) = [] := by
        rw [List.filterMap_eq_nil_iff]
        intro a ha
        have hne : a.1 ≠ L := by
          intro hc
          exact hnotin (he0 ▸ hc ▸ List.mem_map_of_mem (fun e => e.1) ha)
        rw [hothers a (List.mem_cons_of_mem e0 ha) hne]
        rfl
      rw [hrest_nil]
      rw [he0]
      rfl
    · have h0 : detectOne fs e0.2 = none := hothers e0 (List.mem_cons_self e0 rest) he0
      rw [List.filterMap_cons, h0]
      have hmem' : (L, hm) ∈ rest := by
        rcases List.mem_cons.mp hmem with heq | hrest
        · exact absurd (by rw [← heq]) he0
        · exact hrest
      exact ih L hm d hndrest hmem' hdet
        (fun e he hne => hothers e (List.mem_cons_of_mem e0 he) hne)

/-- The running maximum never loses priority against any member. -/
theorem maxByPriority_ge (x : String × Confidence × String)
    (xs : List (String × Confidence × String)) :
    ∀ y ∈ x :: xs, confPriority y.2.1 ≤ confPriority (maxByPriority x xs).2.1 := by
  unfold maxByPriority
  induction xs generalizing x with
  | nil =>
    intro y hy
    rcases List.mem_cons.mp hy with rfl | h
    · exact le_refl _
    · exact absurd h (List.not_mem_nil y)
  | cons z zs ih =>
    intro y hy
    rw [List.foldl_cons]
    set w := if confPriority x.2.1 < confPriority z.2.1 then z else x with hw
    have hxw : confPriority x.2.1 ≤ confPriority w.2.1 := by
      rw [hw]; split
      · next hc => exact Nat.le_of_lt hc
      · exact le_refl _
    have hzw : confPriority z.2.1 ≤ confPriority w.2.1 := by
      rw [hw]; split
      · exact le_refl _
      · next hc => exact Nat.le_of_not_lt hc
    rcases List.mem_cons.mp hy with rfl | h
    · exact le_trans hxw (ih w w (List.mem_cons_self w zs))
    · rcases List.mem_cons.mp h with rfl | h2
      · exact le_trans hzw (ih w w (List.mem_cons_self w zs))
      · exact ih w y (List.mem_cons_of_mem w h2)

/-- C2: language detection honours the marker tiers — a tree where language
L has a high-tier marker match and no other registered language has any
marker match is classified as L with high confidence; and a medium-confidence
answer is only ever produced when no registered language has any high-tier
marker match. -/
theorem c2_marker_tiers :
    (∀ (fs : FS) (L : String) (hm : List String × List String),
        (L, hm) ∈ LANGUAGE_MARKERS →
        hasHighMarkerB fs hm = true →
        (∀ e ∈ LANGUAGE_MARKERS, e.1 ≠ L → hasAnyMarkerB fs e.2 = false) →
        (detect_language fs).language = L ∧ (detect_language fs).confidence = .high) ∧
    (∀ fs : FS, (detect_language fs).confidence = .medium →
        ∀ e ∈ LANGUAGE_MARKERS, hasHighMarkerB fs e.2 = false) := by
  constructor
  · intro fs L hm hmem hhigh hothers
    obtain ⟨m0, hdet⟩ := detectOne_high hhigh
    have hsing : detections fs = [(L, (.high, m0))] := by
      unfold detections
      exact detections_singleton fs LANGUAGE_MARKERS L hm (.high, m0)
        (by decide) hmem hdet
        (fun e he hne => detectOne_eq_none (hothers e he hne))
    unfold detect_language
    rw [hsing]
    exact ⟨rfl, rfl⟩
  · intro fs hconf e hmem
    by_contra hc
    rw [Bool.not_eq_false] at hc
    obtain ⟨m0, hdet⟩ := detectOne_high hc
    have hmemdet : (e.1, (Confidence.high, m0)) ∈ detections fs := by
      unfold detections
      exact List.mem_filterMap.mpr ⟨e, hmem, by rw [hdet]; rfl⟩
    cases hdets : detections fs with
    | nil => rw [hdets] at hmemdet; exact absurd hmemdet (List.not_mem_nil _)
    | cons d ds =>
      unfold detect_language at hconf
      rw [hdets] at hconf
      dsimp only at hconf
      rw [hdets] at hmemdet
      have hge := maxByPriority_ge d ds (e.1, (Confidence.high, m0)) hmemdet
      rw [hconf] at hge
      simp [confPriority] at hge

/-- C2 witness: a tree holding only requirements.txt is python with high
confidence. -/
theorem c2_witness :
    ("python", (["requirements.txt", "setup.py", "pyproject.toml", "Pipfile"],
        ["*.py"])) ∈ LANGUAGE_MARKERS ∧
    (detect_language ⟨[⟨["requirements.txt"], "flask==2.0"⟩], []⟩).language = "python" ∧
    (detect_language ⟨[⟨["requirements.txt"], "flask==2.0"⟩], []⟩).confidence = .high :=
  ⟨by decide,
    (c2_marker_tiers.1 ⟨[⟨["requirements.txt"], "flask==2.0"⟩], []⟩ "python"
      (["requirements.txt", "setup.py", "pyproject.toml", "Pipfile"], ["*.py"])
      (by decide) (by decide) (by decide)).1,
    (c2_marker_tiers.1 ⟨[⟨["requirements.txt"], "flask==2.0"⟩], []⟩ "python"
      (["requirements.txt", "setup.py", "pyproject.toml", "Pipfile"], ["*.py"])
      (by decide) (by decide) (by decide)).2⟩

/-- A python tree whose only framework identifier sits in the conventional
entry-point file. -/
def c5FS : FS := ⟨[⟨["main.py"], "from flask import Flask"⟩], []⟩

/-- C5 counterexample: a Flask identifier in main.py alone is not detected —
python framework detection reads requirements.txt and pyproject.toml only,
never an entry-point source file, so the claim that the scan also covers a
conventional entry-point filename fails. -/
theorem c5_counterexample :
    substr "flask" "from flask import Flask" = true ∧
    detect_framework c5FS "python" = none := by
  decide

/-- The registered python framework table. -/
def pythonFrameworkTable : List (String × List String) :=
  ((FRAMEWORK_DETECTION.find? (fun e => e.1 == "python")).map (·.2)).getD []

/-- Stated from the specification's words: scan the given manifest content
for any identifier as a case-insensitive substring and return the first
framework in table-iteration order whose identifier is found, or null. -/
def firstFrameworkBySpec (table : List (String × List String)) (content : String) :
    Option String :=
  (table.find? (fun fw => fw.2.any (fun m => substr (toLowerS m) (toLowerS content)))).map
    (fun fw => fw.1)

/-- The framework identifier table registered for a language, empty when the
language has no entry. -/
def frameworkTableOf (language : String) : List (String × List String) :=
  ((FRAMEWORK_DETECTION.find? (fun e => e.1 == language)).map (·.2)).getD []

/-- Stated from the amended claim's words: the first framework in
table-iteration order one of whose identifiers occurs in the content as a
raw substring, or null. -/
def firstFrameworkRawSpec (table : List (String × List String)) (content : String) :
    Option String :=
  (table.find? (fun fw => fw.2.any (fun m => substr m content))).map (fun fw => fw.1)

/-- Stated from the amended claim's words for python: requirements.txt is
scanned case-insensitively first; when it is absent or no identifier of any
framework appears in it, pyproject.toml is scanned the same way; no
entry-point source file takes part. -/
def pythonFrameworkSpec (fs : FS) : Option String :=
  match readFile fs ["requirements.txt"] with
  | some content =>
    (match firstFrameworkBySpec pythonFrameworkTable content with
     | some f => some f
     | none => (readFile fs ["pyproject.toml"]).bind (firstFrameworkBySpec pythonFrameworkTable))
  | none => (readFile fs ["pyproject.toml"]).bind (firstFrameworkBySpec pythonFrameworkTable)

/-- Stated from the amended claim's words for go: the single manifest go.mod
is scanned for raw identifier substrings. -/
def goFrameworkSpec (fs : FS) : Option String :=
  (readFile fs ["go.mod"]).bind (firstFrameworkRawSpec (frameworkTableOf "go"))

/-- Stated from the amended claim's words for java and kotlin: pom.xml, then
build.gradle, then build.gradle.kts are scanned for raw identifier
substrings, the first manifest with any hit deciding. -/
def javaKotlinFrameworkSpec (table : List (String × List String)) (fs : FS) :
    Option String :=
  match (readFile fs ["pom.xml"]).bind (firstFrameworkRawSpec table) with
  | some f => some f
  | none =>
    match (readFile fs ["build.gradle"]).bind (firstFrameworkRawSpec table) with
    | some f => some f
    | none => (readFile fs ["build.gradle.kts"]).bind (firstFrameworkRawSpec table)

/-- Stated from the amended claim's words for node and typescript: the
identifiers are tested for exact key membership among the merged
dependencies and devDependencies keys of package.json — not as substrings —
and a missing or unparseable manifest yields null. -/
def nodeTsFrameworkSpec (table : List (String × List String)) (fs : FS) :
    Option String :=
  match readFile fs ["package.json"] with
  | none => none
  | some content =>
    match jsonParse content with
    | some (.jobj pkg) =>
      match asFields (jLookup pkg "dependencies"), asFields (jLookup pkg "devDependencies") with
      | some d1, some d2 =>
        (table.find? (fun fw => fw.2.any (fun m =>
            (jKeys d1).contains m || (jKeys d2).contains m))).map (fun fw => fw.1)
      | _, _ => none
    | _ => none

/-- The java/kotlin manifest cascade agrees with its spec-side
description, table by table. -/
theorem detect_java_framework_spec (fs : FS) (table : List (String × List String)) :
    detect_java_framework fs table = javaKotlinFrameworkSpec table fs := by
  have halign : ∀ content, firstFrameworkRawSpec table content =
      firstFramework table (fun m => substr m content) := fun _ => rfl
  unfold detect_java_framework scanManifestRaw javaKotlinFrameworkSpec
  cases h1 : readFile fs ["pom.xml"] with
  | none =>
    simp only [Option.none_bind']
    cases h2 : readFile fs ["build.gradle"] with
    | none =>
      simp only [Option.none_bind']
      cases h3 : readFile fs ["build.gradle.kts"] with
      | none => rfl
      | some c => rfl
    | some c2 =>
      simp only [Option.some_bind', halign]
      cases hf2 : firstFramework table (fun m => substr m c2) with
      | some f => rfl
      | none =>
        cases h3 : readFile fs ["build.gradle.kts"] with
        | none => rfl
        | some c => rfl
  | some c1 =>
    simp only [Option.some_bind', halign]
    cases hf1 : firstFramework table (fun m => substr m c1) with
    | some f => rfl
    | none =>
      simp only [Option.none_bind']
      cases h2 : readFile fs ["build.gradle"] with
      | none =>
        simp only [Option.none_bind']
        cases h3 : readFile fs ["build.gradle.kts"] with
        | none => rfl
        | some c => rfl
      | some c2 =>
        simp only [Option.some_bind', halign]
        cases hf2 : firstFramework table (fun m => substr m c2) with
        | some f => rfl
        | none =>
          cases h3 : readFile fs ["build.gradle.kts"] with
          | none => rfl
          | some c => rfl

/-- C5 amended: framework detection is a per-language manifest probe with
first-match-in-table-order tie-break. Python scans requirements.txt and then
pyproject.toml for case-insensitive identifier substrings (no conventional
entry-point source filename is consulted); go scans go.mod and java/kotlin
scan pom.xml, build.gradle, then build.gradle.kts for raw identifier
substrings; node and typescript test exact key membership among the merged
dependency keys of package.json, not substrings. A python manifest naming
both Django and Flask yields Django, an identifier found only in
pyproject.toml is still found, a package.json key merely containing an
identifier as a substring is not a hit, and the answer is null when no
identifier of any framework appears. -/
theorem c5_framework_per_language_scan :
    (∀ fs : FS, detect_framework fs "python" = pythonFrameworkSpec fs) ∧
    (∀ fs : FS, detect_framework fs "go" = goFrameworkSpec fs) ∧
    (∀ fs : FS, detect_framework fs "node" =
      nodeTsFrameworkSpec (frameworkTableOf "node") fs) ∧
    (∀ fs : FS, detect_framework fs "typescript" =
      nodeTsFrameworkSpec (frameworkTableOf "typescript") fs) ∧
    (∀ fs : FS, detect_framework fs "java" =
      javaKotlinFrameworkSpec (frameworkTableOf "java") fs) ∧
    (∀ fs : FS, detect_framework fs "kotlin" =
      javaKotlinFrameworkSpec (frameworkTableOf "kotlin") fs) ∧
    detect_framework ⟨[⟨["requirements.txt"], "django==4.2\nflask==2.0"⟩], []⟩ "python" =
      some "Django" ∧
    detect_framework ⟨[⟨["pyproject.toml"], "dependencies = [\"fastapi\"]"⟩], []⟩
      "python" = some "FastAPI" ∧
    detect_framework
      ⟨[⟨["package.json"],
         "\x7b\"dependencies\": \x7b\"express-validator\": \"7.0\"\x7d\x7d"⟩], []⟩
      "node" = none ∧
    (∀ fs : FS,
        readFile fs ["requirements.txt"] = none →
        readFile fs ["pyproject.toml"] = none →
        detect_framework fs "python" = none) := by
  refine ⟨?_, ?_, fun fs => rfl, fun fs => rfl, ?_, ?_,
    by decide, by decide, by decide, ?_⟩
  · intro fs
    have hdf : detect_framework fs "python" =
        detect_python_framework fs pythonFrameworkTable := rfl
    rw [hdf]
    unfold detect_python_framework scanManifestLower pythonFrameworkSpec
    cases hr : readFile fs ["requirements.txt"] with
    | none =>
      cases hp : readFile fs ["pyproject.toml"] with
      | none => rfl
      | some c2 => rfl
    | some c1 =>
      dsimp only
      rw [show firstFrameworkBySpec pythonFrameworkTable c1 =
        firstFramework pythonFrameworkTable
          (fun m => substr (toLowerS m) (toLowerS c1)) from rfl]
      cases hff : firstFramework pythonFrameworkTable
          (fun m => substr (toLowerS m) (toLowerS c1)) with
      | some f => rfl
      | none =>
        cases hp : readFile fs ["pyproject.toml"] with
        | none => rfl
        | some c2 => rfl
  · intro fs
    have hdf : detect_framework fs "go" =
        detect_go_framework fs (frameworkTableOf "go") := rfl
    rw [hdf]
    unfold detect_go_framework scanManifestRaw goFrameworkSpec
    cases hr : readFile fs ["go.mod"] with
    | none => rfl
    | some c => rfl
  · intro fs
    have hdf : detect_framework fs "java" =
        detect_java_framework fs (frameworkTableOf "java") := rfl
    rw [hdf]
    exact detect_java_framework_spec fs (frameworkTableOf "java")
  · intro fs
    have hdf : detect_framework fs "kotlin" =
        detect_java_framework fs (frameworkTableOf "kotlin") := rfl
    rw [hdf]
    exact detect_java_framework_spec fs (frameworkTableOf "kotlin")
  · intro fs h1 h2
    have hdf : detect_framework fs "python" =
        detect_python_framework fs pythonFrameworkTable := rfl
    rw [hdf]
    unfold detect_python_framework scanManifestLower
    rw [h1, h2]

/-- C5 witness: the python characterisation and the null case applied at
concrete trees. -/
theorem c5_witness :
    detect_framework ⟨[⟨["requirements.txt"], "tornado\npyramid"⟩], []⟩ "python" =
      pythonFrameworkSpec ⟨[⟨["requirements.txt"], "tornado\npyramid"⟩], []⟩ ∧
    pythonFrameworkSpec ⟨[⟨["requirements.txt"], "tornado\npyramid"⟩], []⟩ =
      some "Tornado" ∧
    detect_framework ⟨[], []⟩ "python" = none :=
  ⟨c5_framework_per_language_scan.1 ⟨[⟨["requirements.txt"], "tornado\npyramid"⟩], []⟩,
    by decide,
    c5_framework_per_language_scan.2.2.2.2.2.2.2.2.2 ⟨[], []⟩ (by decide) (by decide)⟩

/-- A tree with a pytest test file inside dirA and nothing inside dirB. -/
def c8FS : FS := ⟨[⟨["dirA", "test_x.py"], "import pytest"⟩], []⟩

/-- C8 counterexample: on a fresh analyzer dirB classifies as UNKNOWN, but
after an earlier discovery over dirA the same detect_test_type call on dirB
answers PYTEST — the stored test-file list leaks across invocations and
changes a later answer, refuting the purity claim. -/
theorem c8_counterexample :
    (detect_test_type c8FS ⟨[]⟩ ["dirB"]).1 = .UNKNOWN ∧
    (detect_test_type c8FS (discover_test_files_m c8FS ⟨[]⟩ ["dirA"]).2 ["dirB"]).1 =
      .PYTEST := by
  decide

/-- C8 amended: discovery itself is a pure function of the tree (it
overwrites the stored list, ignoring prior state), and detect_test_type is
history-independent exactly from states whose stored list is empty; a
non-empty stored list from an earlier discovery on another path is reused
and can change the result. -/
theorem c8_state_dependence :
    (∀ (fs : FS) (st st2 : TFState) (sp : List String),
        discover_test_files_m fs st sp = discover_test_files_m fs st2 sp) ∧
    (∀ (fs : FS) (st : TFState) (sp : List String), st.test_files = [] →
        detect_test_type fs st sp = detect_test_type fs ⟨[]⟩ sp) := by
  constructor
  · intro fs st st2 sp
    rfl
  · intro fs st sp h
    cases st with
    | mk tf =>
      dsimp only at h
      subst h
      rfl

/-- C8 witness: the empty-state purity applied at a concrete tree. -/
theorem c8_witness :
    (TFState.mk []).test_files = [] ∧
    detect_test_type c8FS ⟨[]⟩ ["dirA"] = detect_test_type c8FS ⟨[]⟩ ["dirA"] :=
  ⟨rfl, c8_state_dependence.2 c8FS ⟨[]⟩ ["dirA"] rfl⟩

/-- Acceptance of a candidate forces the threshold and fixes name and
score. -/
theorem analyze_candidate_some {fs : FS} {c : String} {p : ProjectInfo}
    (h : analyze_project_candidate fs c = some p) :
    p.name = c ∧ 2 ≤ candidateHalfScore fs c ∧
      p.halfConfidence = candidateHalfScore fs c := by
  unfold analyze_project_candidate at h
  dsimp only at h
  by_cases hs : 2 ≤ candidateHalfScore fs c
  · rw [if_pos hs] at h
    injection h with h2
    subst h2
    exact ⟨rfl, hs, rfl⟩
  · rw [if_neg hs] at h
    exact absurd h (by simp)

/-- A candidate at or above the threshold is accepted. -/
theorem analyze_candidate_of_score {fs : FS} {c : String}
    (hs : 2 ≤ candidateHalfScore fs c) :
    analyze_project_candidate fs c = some
      ⟨[c], c,
        (if (strongMatchNames fs c).isEmpty then "Unknown"
         else detect_language_from_files (strongMatchNames fs c)),
        candidateHalfScore fs c⟩ := by
  unfold analyze_project_candidate
  dsimp only
  rw [if_pos hs]

/-- The multi-project scenario tree: one child with package.json, one child
with go.mod, one empty child directory. -/
def c6FS : FS :=
  ⟨[⟨["alpha", "package.json"], "x"⟩, ⟨["beta", "go.mod"], "module b"⟩], [["gamma"]]⟩

/-- C6: project discovery returns, sorted by descending confidence, exactly
the non-hidden immediate child directories whose additive score reaches the
threshold (scores measured exactly in half points: strong 4, medium 2, weak
1, threshold 2 standing for the float weights 2.0, 1.0, 0.5 and 1.0, whose
sums are exact); in the concrete three-child scenario exactly the two
non-empty children come back, in rank order, and the empty one is excluded
with score zero. -/
theorem c6_project_discovery :
    (∀ (fs : FS) (c : String),
        (∃ p ∈ discover_projects fs, p.name = c) ↔
          (c ∈ childCandidates fs ∧ 2 ≤ candidateHalfScore fs c)) ∧
    (∀ fs : FS, (discover_projects fs).Pairwise
        (fun a b => b.halfConfidence ≤ a.halfConfidence)) ∧
    ((discover_projects c6FS).map (fun p => p.name) = ["alpha", "beta"] ∧
      (discover_projects c6FS).map (fun p => p.halfConfidence) = [4, 4] ∧
      "gamma" ∈ childCandidates c6FS ∧ candidateHalfScore c6FS "gamma" = 0) := by
  refine ⟨?_, ?_, by decide⟩
  · intro fs c
    constructor
    · rintro ⟨p, hp, rfl⟩
      unfold discover_projects at hp
      rw [mem_sortDescBy] at hp
      obtain ⟨child, hchild, hsome⟩ := List.mem_filterMap.mp hp
      obtain ⟨hname, hscore, _⟩ := analyze_candidate_some hsome
      rw [hname]
      exact ⟨hchild, hscore⟩
    · rintro ⟨hmem, hscore⟩
      refine ⟨⟨[c], c,
        (if (strongMatchNames fs c).isEmpty then "Unknown"
         else detect_language_from_files (strongMatchNames fs c)),
        candidateHalfScore fs c⟩, ?_, rfl⟩
      unfold discover_projects
      rw [mem_sortDescBy]
      exact List.mem_filterMap.mpr ⟨c, hmem, analyze_candidate_of_score hscore⟩
  · intro fs
    unfold discover_projects
    exact pairwise_sortDescBy _ _

/-- A findSome? result inherits any property of the probe's hits. -/
theorem findSome?_ne_of {α : Type} {f : α → Option TestType}
    (hf : ∀ a t, f a = some t → t ≠ .UNKNOWN) :
    ∀ (l : List α) (t : TestType), l.findSome? f = some t → t ≠ .UNKNOWN := by
  intro l t h
  obtain ⟨a, _, ha⟩ := findSome?_mem h
  exact hf a t ha

/-- A bound content check inherits any property of its hits. -/
theorem bind_ne_of {chk : String → Option TestType}
    (hchk : ∀ c t, chk c = some t → t ≠ .UNKNOWN) :
    ∀ (o : Option String) (t : TestType), o.bind chk = some t → t ≠ .UNKNOWN := by
  intro o t h
  rcases Option.bind_eq_some.mp h with ⟨c, _, hc⟩
  exact hchk c t hc

theorem pyConfigContentCheck_ne :
    ∀ (c : String) (t : TestType), pyConfigContentCheck c = some t → t ≠ .UNKNOWN := by
  intro c t h
  unfold pyConfigContentCheck at h
  dsimp only at h
  split_ifs at h
  all_goals first
    | (injection h with h2; subst h2; decide)
    | injection h
    | exact absurd h (by simp)

theorem pyMainContentCheck_ne :
    ∀ (c : String) (t : TestType), pyMainContentCheck c = some t → t ≠ .UNKNOWN := by
  intro c t h
  unfold pyMainContentCheck at h
  dsimp only at h
  split_ifs at h
  all_goals first
    | (injection h with h2; subst h2; decide)
    | injection h
    | exact absurd h (by simp)

theorem pyTestFileContentCheck_ne :
    ∀ (c : String) (t : TestType), pyTestFileContentCheck c = some t → t ≠ .UNKNOWN := by
  intro c t h
  unfold pyTestFileContentCheck at h
  dsimp only at h
  split_ifs at h
  all_goals first
    | (injection h with h2; subst h2; decide)
    | injection h
    | exact absurd h (by simp)

theorem javaManifestCheck_ne :
    ∀ (c : String) (t : TestType), javaManifestCheck c = some t → t ≠ .UNKNOWN := by
  intro c t h
  unfold javaManifestCheck at h
  dsimp only at h
  split_ifs at h
  all_goals first
    | (injection h with h2; subst h2; decide)
    | injection h
    | exact absurd h (by simp)

theorem javaFileCheck_ne :
    ∀ (c : String) (t : TestType), javaFileCheck c = some t → t ≠ .UNKNOWN := by
  intro c t h
  unfold javaFileCheck at h
  split_ifs at h
  all_goals first
    | (injection h with h2; subst h2; decide)
    | injection h
    | exact absurd h (by simp)

theorem goModCheck_ne :
    ∀ (c : String) (t : TestType), goModCheck c = some t → t ≠ .UNKNOWN := by
  intro c t h
  unfold goModCheck at h
  dsimp only at h
  split_ifs at h
  all_goals first
    | (injection h with h2; subst h2; decide)
    | injection h
    | exact absurd h (by simp)

theorem goFileCheck_ne :
    ∀ (c : String) (t : TestType), goFileCheck c = some t → t ≠ .UNKNOWN := by
  intro c t h
  unfold goFileCheck at h
  split_ifs at h
  all_goals first
    | (injection h with h2; subst h2; decide)
    | injection h
    | exact absurd h (by simp)

theorem cmakeCheck_ne :
    ∀ (c : String) (t : TestType), cmakeCheck c = some t → t ≠ .UNKNOWN := by
  intro c t h
  unfold cmakeCheck at h
  split_ifs at h
  all_goals first
    | (injection h with h2; subst h2; decide)
    | injection h
    | exact absurd h (by simp)

theorem cppFileCheck_ne :
    ∀ (c : String) (t : TestType), cppFileCheck c = some t → t ≠ .UNKNOWN := by
  intro c t h
  unfold cppFileCheck at h
  split_ifs at h
  all_goals first
    | (injection h with h2; subst h2; decide)
    | injection h
    | exact absurd h (by simp)

theorem csprojCheck_ne :
    ∀ (c : String) (t : TestType), csprojCheck c = some t → t ≠ .UNKNOWN := by
  intro c t h
  unfold csprojCheck at h
  dsimp only at h
  split_ifs at h
  all_goals first
    | (injection h with h2; subst h2; decide)
    | injection h
    | exact absurd h (by simp)

theorem csFileCheck_ne :
    ∀ (c : String) (t : TestType), csFileCheck c = some t → t ≠ .UNKNOWN := by
  intro c t h
  unfold csFileCheck at h
  split_ifs at h
  all_goals first
    | (injection h with h2; subst h2; decide)
    | injection h
    | exact absurd h (by simp)

theorem phpFileCheck_ne :
    ∀ (c : String) (t : TestType), phpFileCheck c = some t → t ≠ .UNKNOWN := by
  intro c t h
  unfold phpFileCheck at h
  split_ifs at h
  all_goals first
    | (injection h with h2; subst h2; decide)
    | injection h
    | exact absurd h (by simp)

theorem gemfileCheck_ne :
    ∀ (c : String) (t : TestType), gemfileCheck c = some t → t ≠ .UNKNOWN := by
  intro c t h
  unfold gemfileCheck at h
  split_ifs at h
  all_goals first
    | (injection h with h2; subst h2; decide)
    | injection h
    | exact absurd h (by simp)

theorem rubyFileCheck_ne :
    ∀ (c : String) (t : TestType), rubyFileCheck c = some t → t ≠ .UNKNOWN := by
  intro c t h
  unfold rubyFileCheck at h
  split_ifs at h
  all_goals first
    | (injection h with h2; subst h2; decide)
    | injection h
    | exact absurd h (by simp)

theorem jsPkgScan_ne (fs : FS) (sp : List String) :
    ∀ t, jsPkgScan fs sp = some t → t ≠ .UNKNOWN := by
  intro t h
  unfold jsPkgScan at h
  dsimp only at h
  repeat' split at h
  all_goals try split_ifs at h
  all_goals first
    | (injection h with h2; subst h2; decide)
    | injection h
    | exact absurd h (by simp)

theorem composerPhpunitCheck_ne (fs : FS) (sp : List String) :
    ∀ t, composerPhpunitCheck fs sp = some t → t ≠ .UNKNOWN := by
  intro t h
  unfold composerPhpunitCheck at h
  repeat' split at h
  all_goals try split_ifs at h
  all_goals first
    | (injection h with h2; subst h2; decide)
    | injection h
    | exact absurd h (by simp)

theorem pyTestFileScan_ne (fs : FS) (files : List (List String)) :
    ∀ t, pyTestFileScan fs files = some t → t ≠ .UNKNOWN := by
  intro t h
  obtain ⟨p, _, hp⟩ := findSome?_mem h
  split at hp
  · exact bind_ne_of pyTestFileContentCheck_ne _ t hp
  · exact absurd hp (by simp)

/-- The python cascade never answers UNKNOWN. -/
theorem detect_python_tf_ne (fs : FS) (files : List (List String)) (sp : List String) :
    detect_python_tf fs files sp ≠ .UNKNOWN := by
  unfold detect_python_tf
  split
  · next t ht =>
    exact findSome?_ne_of (fun cf u hu => bind_ne_of pyConfigContentCheck_ne _ u hu) _ t ht
  · split
    · next t ht =>
      exact findSome?_ne_of (fun mf u hu => bind_ne_of pyMainContentCheck_ne _ u hu) _ t ht
    · split
      · next t ht => exact pyTestFileScan_ne fs files t ht
      · split_ifs <;> simp

/-- The javascript cascade never answers UNKNOWN. -/
theorem detect_js_tf_ne (fs : FS) (sp : List String) :
    detect_js_tf fs sp ≠ .UNKNOWN := by
  unfold detect_js_tf
  split
  · next t ht => exact jsPkgScan_ne fs sp t ht
  · split_ifs <;> simp

/-- The java cascade never answers UNKNOWN. -/
theorem detect_java_tf_ne (fs : FS) (files : List (List String)) (sp : List String) :
    detect_java_tf fs files sp ≠ .UNKNOWN := by
  unfold detect_java_tf
  split
  · next t ht => exact bind_ne_of javaManifestCheck_ne _ t ht
  · split
    · next t ht => exact bind_ne_of javaManifestCheck_ne _ t ht
    · split
      · next t ht =>
        exact findSome?_ne_of (fun p u hu => bind_ne_of javaFileCheck_ne _ u hu) _ t ht
      · simp

/-- The go cascade never answers UNKNOWN. -/
theorem detect_go_tf_ne (fs : FS) (files : List (List String)) (sp : List String) :
    detect_go_tf fs files sp ≠ .UNKNOWN := by
  unfold detect_go_tf
  split
  · next t ht => exact bind_ne_of goModCheck_ne _ t ht
  · split
    · next t ht =>
      exact findSome?_ne_of (fun p u hu => bind_ne_of goFileCheck_ne _ u hu) _ t ht
    · simp

/-- The cpp cascade never answers UNKNOWN. -/
theorem detect_cpp_tf_ne (fs : FS) (files : List (List String)) (sp : List String) :
    detect_cpp_tf fs files sp ≠ .UNKNOWN := by
  unfold detect_cpp_tf
  split
  · next t ht => exact bind_ne_of cmakeCheck_ne _ t ht
  · split
    · next t ht =>
      exact findSome?_ne_of (fun p u hu => bind_ne_of cppFileCheck_ne _ u hu) _ t ht
    · simp

/-- The csharp cascade never answers UNKNOWN. -/
theorem detect_csharp_tf_ne (fs : FS) (files : List (List String)) (sp : List String) :
    detect_csharp_tf fs files sp ≠ .UNKNOWN := by
  unfold detect_csharp_tf
  split
  · next t ht =>
    exact findSome?_ne_of (fun p u hu => bind_ne_of csprojCheck_ne _ u hu) _ t ht
  · split
    · next t ht =>
      exact findSome?_ne_of (fun p u hu => bind_ne_of csFileCheck_ne _ u hu) _ t ht
    · simp

/-- The php cascade never answers UNKNOWN. -/
theorem detect_php_tf_ne (fs : FS) (files : List (List String)) (sp : List String) :
    detect_php_tf fs files sp ≠ .UNKNOWN := by
  unfold detect_php_tf
  split
  · next t ht => exact composerPhpunitCheck_ne fs sp t ht
  · split
    · next t ht =>
      exact findSome?_ne_of (fun p u hu => bind_ne_of phpFileCheck_ne _ u hu) _ t ht
    · simp

/-- The ruby cascade never answers UNKNOWN. -/
theorem detect_ruby_tf_ne (fs : FS) (files : List (List String)) (sp : List String) :
    detect_ruby_tf fs files sp ≠ .UNKNOWN := by
  unfold detect_ruby_tf
  split
  · next t ht => exact bind_ne_of gemfileCheck_ne _ t ht
  · split_ifs
    · simp
    · simp
    · split
      · next t ht =>
        exact findSome?_ne_of (fun p u hu => bind_ne_of rubyFileCheck_ne _ u hu) _ t ht
      · simp

/-- The project languages detect_test_type dispatches on. -/
def HANDLED_LANGS : List String :=
  ["Java", "Python", "JavaScript", "TypeScript", "Go", "C++", "C#", "PHP", "Ruby"]

/-- A project tree with an inferable language but no test files. -/
def c3FS : FS := ⟨[⟨["app", "main.py"], "x = 1"⟩], []⟩

/-- C3 counterexample: with no test files the classifier answers UNKNOWN even
though a language (Python) is inferable from the tree, so UNKNOWN is not
reserved for the case where additionally no language could be inferred. -/
theorem c3_counterexample :
    (detect_test_type c3FS ⟨[]⟩ ["app"]).1 = .UNKNOWN ∧
    detect_project_language c3FS ["app"] = "Python" := by
  decide

set_option maxHeartbeats 1600000 in
/-- An UNKNOWN answer of the dispatch body forces every dispatch condition
false: the inferred language is unhandled and no stored file carries a
recognized suffix. -/
theorem detect_core_unknown_conditions (fs : FS) (files : List (List String))
    (sp : List String) (h : detect_core fs files sp = .UNKNOWN) :
    detect_project_language fs sp ∉ HANDLED_LANGS ∧
      hasSuffixIn files [".py"] = false ∧
      hasSuffixIn files [".js", ".ts", ".jsx", ".tsx"] = false ∧
      hasSuffixIn files [".java"] = false ∧
      hasSuffixIn files [".go"] = false ∧
      hasSuffixIn files [".cpp", ".cc", ".cxx"] = false ∧
      hasSuffixIn files [".cs"] = false ∧
      hasSuffixIn files [".php"] = false ∧
      hasSuffixIn files [".rb"] = false := by
  unfold detect_core at h
  dsimp only at h
  by_cases c1 : (detect_project_language fs sp == "Java") = true
  · rw [if_pos c1] at h; exact absurd h (detect_java_tf_ne _ _ _)
  rw [if_neg c1] at h
  by_cases c2 : (detect_project_language fs sp == "Python") = true
  · rw [if_pos c2] at h; exact absurd h (detect_python_tf_ne _ _ _)
  rw [if_neg c2] at h
  by_cases c3 : (detect_project_language fs sp == "JavaScript" ||
      detect_project_language fs sp == "TypeScript") = true
  · rw [if_pos c3] at h; exact absurd h (detect_js_tf_ne _ _)
  rw [if_neg c3] at h
  by_cases c4 : (detect_project_language fs sp == "Go") = true
  · rw [if_pos c4] at h; exact absurd h (detect_go_tf_ne _ _ _)
  rw [if_neg c4] at h
  by_cases c5 : (detect_project_language fs sp == "C++") = true
  · rw [if_pos c5] at h; exact absurd h (detect_cpp_tf_ne _ _ _)
  rw [if_neg c5] at h
  by_cases c6 : (detect_project_language fs sp == "C#") = true
  · rw [if_pos c6] at h; exact absurd h (detect_csharp_tf_ne _ _ _)
  rw [if_neg c6] at h
  by_cases c7 : (detect_project_language fs sp == "PHP") = true
  · rw [if_pos c7] at h; exact absurd h (detect_php_tf_ne _ _ _)
  rw [if_neg c7] at h
  by_cases c8 : (detect_project_language fs sp == "Ruby") = true
  · rw [if_pos c8] at h; exact absurd h (detect_ruby_tf_ne _ _ _)
  rw [if_neg c8] at h
  by_cases c9 : hasSuffixIn files [".py"] = true
  · rw [if_pos c9] at h; exact absurd h (detect_python_tf_ne _ _ _)
  rw [if_neg c9] at h
  by_cases c10 : hasSuffixIn files [".js", ".ts", ".jsx", ".tsx"] = true
  · rw [if_pos c10] at h; exact absurd h (detect_js_tf_ne _ _)
  rw [if_neg c10] at h
  by_cases c11 : hasSuffixIn files [".java"] = true
  · rw [if_pos c11] at h; exact absurd h (detect_java_tf_ne _ _ _)
  rw [if_neg c11] at h
  by_cases c12 : hasSuffixIn files [".go"] = true
  · rw [if_pos c12] at h; exact absurd h (detect_go_tf_ne _ _ _)
  rw [if_neg c12] at h
  by_cases c13 : hasSuffixIn files [".cpp", ".cc", ".cxx"] = true
  · rw [if_pos c13] at h; exact absurd h (detect_cpp_tf_ne _ _ _)
  rw [if_neg c13] at h
  by_cases c14 : hasSuffixIn files [".cs"] = true
  · rw [if_pos c14] at h; exact absurd h (detect_csharp_tf_ne _ _ _)
  rw [if_neg c14] at h
  by_cases c15 : hasSuffixIn files [".php"] = true
  · rw [if_pos c15] at h; exact absurd h (detect_php_tf_ne _ _ _)
  rw [if_neg c15] at h
  by_cases c16 : hasSuffixIn files [".rb"] = true
  · rw [if_pos c16] at h; exact absurd h (detect_ruby_tf_ne _ _ _)
  rw [if_neg c16] at h
  refine ⟨?_, by simpa using c9, by simpa using c10, by simpa using c11,
    by simpa using c12, by simpa using c13, by simpa using c14,
    by simpa using c15, by simpa using c16⟩
  intro hmem
  simp only [HANDLED_LANGS, List.mem_cons, List.not_mem_nil, or_false] at hmem
  rcases hmem with h' | h' | h' | h' | h' | h' | h' | h' | h'
  · exact c1 (by rw [h']; rfl)
  · exact c2 (by rw [h']; rfl)
  · exact c3 (by rw [h']; rfl)
  · exact c3 (by rw [h']; simp)
  · exact c4 (by rw [h']; rfl)
  · exact c5 (by rw [h']; rfl)
  · exact c6 (by rw [h']; rfl)
  · exact c7 (by rw [h']; rfl)
  · exact c8 (by rw [h']; rfl)

/-- C3 amended: a fresh classification answers UNKNOWN whenever discovery
finds no test files, regardless of language inference; an UNKNOWN answer
arises only from empty discovery or from the degenerate case where neither
the frequency-inferred language nor any recognized test-file suffix applies;
and every per-language cascade whose checks all miss returns its language
default (Python PYTEST, JavaScript and TypeScript JEST, Java JUNIT, Go
GO_TEST, C++ GOOGLE_TEST, C# NUNIT, PHP PHPUNIT, Ruby RSPEC), never
UNKNOWN. -/
theorem c3_unknown_and_cascade_defaults :
    (∀ (fs : FS) (sp : List String),
        discover_test_files fs sp = [] → (detect_test_type fs ⟨[]⟩ sp).1 = .UNKNOWN) ∧
    (∀ (fs : FS) (sp : List String),
        (detect_test_type fs ⟨[]⟩ sp).1 = .UNKNOWN →
        discover_test_files fs sp = [] ∨
          (detect_project_language fs sp ∉ HANDLED_LANGS ∧
            hasSuffixIn (discover_test_files fs sp) [".py"] = false ∧
            hasSuffixIn (discover_test_files fs sp) [".js", ".ts", ".jsx", ".tsx"] = false ∧
            hasSuffixIn (discover_test_files fs sp) [".java"] = false ∧
            hasSuffixIn (discover_test_files fs sp) [".go"] = false ∧
            hasSuffixIn (discover_test_files fs sp) [".cpp", ".cc", ".cxx"] = false ∧
            hasSuffixIn (discover_test_files fs sp) [".cs"] = false ∧
            hasSuffixIn (discover_test_files fs sp) [".php"] = false ∧
            hasSuffixIn (discover_test_files fs sp) [".rb"] = false)) ∧
    (∀ (fs : FS) (files : List (List String)) (sp : List String),
        pyConfigScan fs sp = none → pyMainScan fs sp = none →
        pyTestFileScan fs files = none → detect_python_tf fs files sp = .PYTEST) ∧
    (∀ (fs : FS) (sp : List String),
        jsPkgScan fs sp = none →
        pathPresent fs (sp ++ ["cypress"]) = false →
        pathPresent fs (sp ++ ["playwright.config.js"]) = false →
        pathPresent fs (sp ++ ["playwright.config.ts"]) = false →
        pathPresent fs (sp ++ ["jest.config.js"]) = false →
        pathPresent fs (sp ++ ["jest.config.ts"]) = false →
        pathPresent fs (sp ++ ["vitest.config.js"]) = false →
        pathPresent fs (sp ++ ["vitest.config.ts"]) = false →
        pathPresent fs (sp ++ [".mocharc.js"]) = false →
        pathPresent fs (sp ++ [".mocharc.json"]) = false →
        detect_js_tf fs sp = .JEST) ∧
    (∀ (fs : FS) (files : List (List String)) (sp : List String),
        (readFile fs (sp ++ ["pom.xml"])).bind javaManifestCheck = none →
        (readFile fs (sp ++ ["build.gradle"])).bind javaManifestCheck = none →
        (files.take 5).findSome? (fun p => (readFile fs p).bind javaFileCheck) = none →
        detect_java_tf fs files sp = .JUNIT) ∧
    (∀ (fs : FS) (files : List (List String)) (sp : List String),
        (readFile fs (sp ++ ["go.mod"])).bind goModCheck = none →
        (files.take 5).findSome? (fun p => (readFile fs p).bind goFileCheck) = none →
        detect_go_tf fs files sp = .GO_TEST) ∧
    (∀ (fs : FS) (files : List (List String)) (sp : List String),
        (readFile fs (sp ++ ["CMakeLists.txt"])).bind cmakeCheck = none →
        (files.take 5).findSome? (fun p => (readFile fs p).bind cppFileCheck) = none →
        detect_cpp_tf fs files sp = .GOOGLE_TEST) ∧
    (∀ (fs : FS) (files : List (List String)) (sp : List String),
        (csprojFilesUnder fs sp).findSome? (fun p => (readFile fs p).bind csprojCheck) = none →
        (files.take 5).findSome? (fun p => (readFile fs p).bind csFileCheck) = none →
        detect_csharp_tf fs files sp = .NUNIT) ∧
    (∀ (fs : FS) (files : List (List String)) (sp : List String),
        composerPhpunitCheck fs sp = none →
        (files.take 5).findSome? (fun p => (readFile fs p).bind phpFileCheck) = none →
        detect_php_tf fs files sp = .PHPUNIT) ∧
    (∀ (fs : FS) (files : List (List String)) (sp : List String),
        (readFile fs (sp ++ ["Gemfile"])).bind gemfileCheck = none →
        pathPresent fs (sp ++ ["spec"]) = false →
        pathPresent fs (sp ++ [".rspec"]) = false →
        pathPresent fs (sp ++ ["test"]) = false →
        (files.take 5).findSome? (fun p => (readFile fs p).bind rubyFileCheck) = none →
        detect_ruby_tf fs files sp = .RSPEC) := by
  have hstep : ∀ (fs : FS) (sp : List String), detect_test_type fs ⟨[]⟩ sp =
      (if (discover_test_files fs sp).isEmpty then
        ((.UNKNOWN : TestType), (⟨discover_test_files fs sp⟩ : TFState))
      else (detect_core fs (discover_test_files fs sp) sp,
        ⟨discover_test_files fs sp⟩)) := fun fs sp => rfl
  refine ⟨?_, ?_, ?_, ?_, ?_, ?_, ?_, ?_, ?_, ?_⟩
  · intro fs sp h
    rw [hstep, h]
    rfl
  · intro fs sp h
    by_cases hd : discover_test_files fs sp = []
    · exact Or.inl hd
    · right
      have hne : (discover_test_files fs sp).isEmpty = false := by
        cases hdd : discover_test_files fs sp with
        | nil => exact absurd hdd hd
        | cons a as => rfl
      rw [hstep, hne] at h
      simp only [Bool.false_eq_true, if_false] at h
      exact detect_core_unknown_conditions fs (discover_test_files fs sp) sp h
  · intro fs files sp h1 h2 h3
    simp only [detect_python_tf, h1, h2, h3]
    split_ifs <;> rfl
  · intro fs sp h0 h1 h2 h3 h4 h5 h6 h7 h8 h9
    simp [detect_js_tf, h0, h1, h2, h3, h4, h5, h6, h7, h8, h9]
  · intro fs files sp h1 h2 h3
    simp only [detect_java_tf, h1, h2, h3]
  · intro fs files sp h1 h2
    simp only [detect_go_tf, h1, h2]
  · intro fs files sp h1 h2
    simp only [detect_cpp_tf, h1, h2]
  · intro fs files sp h1 h2
    simp only [detect_csharp_tf, h1, h2]
  · intro fs files sp h1 h2
    simp only [detect_php_tf, h1, h2]
  · intro fs files sp h1 h2 h3 h4 h5
    simp [detect_ruby_tf, h1, h2, h3, h4, h5]
/-- C3 witness: the python cascade with every check missing answers the
python default. -/
theorem c3_witness :
    pyConfigScan ⟨[⟨["test_a.py"], "hello"⟩], []⟩ [] = none ∧
    pyMainScan ⟨[⟨["test_a.py"], "hello"⟩], []⟩ [] = none ∧
    pyTestFileScan ⟨[⟨["test_a.py"], "hello"⟩], []⟩ [["test_a.py"]] = none ∧
    detect_python_tf ⟨[⟨["test_a.py"], "hello"⟩], []⟩ [["test_a.py"]] [] = .PYTEST :=
  ⟨by decide, by decide, by decide,
    c3_unknown_and_cascade_defaults.2.2.1 ⟨[⟨["test_a.py"], "hello"⟩], []⟩
      [["test_a.py"]] [] (by decide) (by decide) (by decide)⟩
